import Mathlib

/-!
Verification development for the floor-plan defect-annotation editor
(`fault_editor.py`, `models.py`).

The annotation canvas is shallowly embedded: Python values that flow through
the snapshot/persistence layer are modelled by the JSON-like type `Py`,
Qt scene coordinates by exact rationals (`Pt`), marks by the `Mark` record,
and the editor's controller / undo machinery by explicit state records with
pure transition functions.  Python code that can raise an uncaught exception
is modelled in the `Except Unit` monad.  Qt's float geometry (outline
flattening and segment intersection in `ray_intersection_point`) is kept
abstract as a `RayFn` parameter: the claims under study quantify over the
intersection result rather than its numeric computation.
-/

namespace FaultEd

/-- Python values that appear in snapshots, records and attribute slots:
`None`, booleans, ints, floats (exact rationals), strings, lists and dicts
(dicts as insertion-ordered association lists, as produced by the source). -/
inductive Py where
  | pnone
  | pbool (b : Bool)
  | pint (n : Int)
  | pfloat (q : ℚ)
  | pstr (s : String)
  | plist (xs : List Py)
  | pdict (kvs : List (String × Py))

mutual

/-- Boolean structural equality on `Py` (Python `==` on these values; dict
comparison is order-sensitive here, while Python's is not — all dicts the
editor compares are built by the same code path with a fixed key order, so
the two notions agree on every value reaching a comparison). -/
def Py.beq : Py → Py → Bool
  | .pnone, .pnone => true
  | .pbool a, .pbool b => a == b
  | .pint a, .pint b => a == b
  | .pfloat a, .pfloat b => a == b
  | .pstr a, .pstr b => a == b
  | .plist xs, .plist ys => Py.beqList xs ys
  | .pdict xs, .pdict ys => Py.beqKVs xs ys
  | _, _ => false

/-- Elementwise `Py.beq` on lists. -/
def Py.beqList : List Py → List Py → Bool
  | [], [] => true
  | x :: xs, y :: ys => Py.beq x y && Py.beqList xs ys
  | _, _ => false

/-- Elementwise `Py.beq` on dict entries. -/
def Py.beqKVs : List (String × Py) → List (String × Py) → Bool
  | [], [] => true
  | (k1, v1) :: xs, (k2, v2) :: ys => k1 == k2 && Py.beq v1 v2 && Py.beqKVs xs ys
  | _, _ => false

end

mutual

/-- `Py.beq` is sound for equality. -/
theorem Py.eq_of_beq : {a b : Py} → Py.beq a b = true → a = b
  | .pnone, .pnone, _ => rfl
  | .pbool a, .pbool b, h => by
      have : a = b := by simpa [Py.beq] using h
      rw [this]
  | .pint a, .pint b, h => by
      have : a = b := by simpa [Py.beq] using h
      rw [this]
  | .pfloat a, .pfloat b, h => by
      have : a = b := by simpa [Py.beq] using h
      rw [this]
  | .pstr a, .pstr b, h => by
      have : a = b := by simpa [Py.beq] using h
      rw [this]
  | .plist xs, .plist ys, h => by
      have : xs = ys := Py.eqList_of_beq (by simpa [Py.beq] using h)
      rw [this]
  | .pdict xs, .pdict ys, h => by
      have : xs = ys := Py.eqKVs_of_beq (by simpa [Py.beq] using h)
      rw [this]
  | .pnone, .pbool _, h => by simp [Py.beq] at h
  | .pnone, .pint _, h => by simp [Py.beq] at h
  | .pnone, .pfloat _, h => by simp [Py.beq] at h
  | .pnone, .pstr _, h => by simp [Py.beq] at h
  | .pnone, .plist _, h => by simp [Py.beq] at h
  | .pnone, .pdict _, h => by simp [Py.beq] at h
  | .pbool _, .pnone, h => by simp [Py.beq] at h
  | .pbool _, .pint _, h => by simp [Py.beq] at h
  | .pbool _, .pfloat _, h => by simp [Py.beq] at h
  | .pbool _, .pstr _, h => by simp [Py.beq] at h
  | .pbool _, .plist _, h => by simp [Py.beq] at h
  | .pbool _, .pdict _, h => by simp [Py.beq] at h
  | .pint _, .pnone, h => by simp [Py.beq] at h
  | .pint _, .pbool _, h => by simp [Py.beq] at h
  | .pint _, .pfloat _, h => by simp [Py.beq] at h
  | .pint _, .pstr _, h => by simp [Py.beq] at h
  | .pint _, .plist _, h => by simp [Py.beq] at h
  | .pint _, .pdict _, h => by simp [Py.beq] at h
  | .pfloat _, .pnone, h => by simp [Py.beq] at h
  | .pfloat _, .pbool _, h => by simp [Py.beq] at h
  | .pfloat _, .pint _, h => by simp [Py.beq] at h
  | .pfloat _, .pstr _, h => by simp [Py.beq] at h
  | .pfloat _, .plist _, h => by simp [Py.beq] at h
  | .pfloat _, .pdict _, h => by simp [Py.beq] at h
  | .pstr _, .pnone, h => by simp [Py.beq] at h
  | .pstr _, .pbool _, h => by simp [Py.beq] at h
  | .pstr _, .pint _, h => by simp [Py.beq] at h
  | .pstr _, .pfloat _, h => by simp [Py.beq] at h
  | .pstr _, .plist _, h => by simp [Py.beq] at h
  | .pstr _, .pdict _, h => by simp [Py.beq] at h
  | .plist _, .pnone, h => by simp [Py.beq] at h
  | .plist _, .pbool _, h => by simp [Py.beq] at h
  | .plist _, .pint _, h => by simp [Py.beq] at h
  | .plist _, .pfloat _, h => by simp [Py.beq] at h
  | .plist _, .pstr _, h => by simp [Py.beq] at h
  | .plist _, .pdict _, h => by simp [Py.beq] at h
  | .pdict _, .pnone, h => by simp [Py.beq] at h
  | .pdict _, .pbool _, h => by simp [Py.beq] at h
  | .pdict _, .pint _, h => by simp [Py.beq] at h
  | .pdict _, .pfloat _, h => by simp [Py.beq] at h
  | .pdict _, .pstr _, h => by simp [Py.beq] at h
  | .pdict _, .plist _, h => by simp [Py.beq] at h
termination_by a _ _ => sizeOf a

/-- `Py.beqList` is sound for equality. -/
theorem Py.eqList_of_beq : {xs ys : List Py} → Py.beqList xs ys = true → xs = ys
  | [], [], _ => rfl
  | [], _ :: _, h => by simp [Py.beqList] at h
  | _ :: _, [], h => by simp [Py.beqList] at h
  | x :: xs, y :: ys, h => by
      have hh : Py.beq x y = true ∧ Py.beqList xs ys = true := by
        simpa [Py.beqList, Bool.and_eq_true] using h
      rw [Py.eq_of_beq hh.1, Py.eqList_of_beq hh.2]
termination_by xs _ _ => sizeOf xs

/-- `Py.beqKVs` is sound for equality. -/
theorem Py.eqKVs_of_beq : {xs ys : List (String × Py)} → Py.beqKVs xs ys = true → xs = ys
  | [], [], _ => rfl
  | [], _ :: _, h => by simp [Py.beqKVs] at h
  | _ :: _, [], h => by simp [Py.beqKVs] at h
  | (k1, v1) :: xs, (k2, v2) :: ys, h => by
      have hh : (k1 == k2) = true ∧ Py.beq v1 v2 = true ∧ Py.beqKVs xs ys = true := by
        simpa [Py.beqKVs, Bool.and_eq_true, and_assoc] using h
      have hk : k1 = k2 := by simpa using hh.1
      rw [hk, Py.eq_of_beq hh.2.1, Py.eqKVs_of_beq hh.2.2]
termination_by xs _ _ => sizeOf xs

end

mutual

/-- `Py.beq` is reflexive. -/
theorem Py.beq_refl : (a : Py) → Py.beq a a = true
  | .pnone => rfl
  | .pbool b => by simp [Py.beq]
  | .pint n => by simp [Py.beq]
  | .pfloat q => by simp [Py.beq]
  | .pstr s => by simp [Py.beq]
  | .plist xs => by simpa [Py.beq] using Py.beqList_refl xs
  | .pdict kvs => by simpa [Py.beq] using Py.beqKVs_refl kvs
termination_by a => sizeOf a

/-- `Py.beqList` is reflexive. -/
theorem Py.beqList_refl : (xs : List Py) → Py.beqList xs xs = true
  | [] => rfl
  | x :: xs => by simp [Py.beqList, Py.beq_refl x, Py.beqList_refl xs]
termination_by xs => sizeOf xs

/-- `Py.beqKVs` is reflexive. -/
theorem Py.beqKVs_refl : (xs : List (String × Py)) → Py.beqKVs xs xs = true
  | [] => rfl
  | (k, v) :: xs => by simp [Py.beqKVs, Py.beq_refl v, Py.beqKVs_refl xs]
termination_by xs => sizeOf xs

end

instance : DecidableEq Py := fun a b =>
  if h : Py.beq a b = true then isTrue (Py.eq_of_beq h)
  else isFalse (fun hh => h (hh ▸ Py.beq_refl a))

/-- Dict entries: ordered key/value association list. -/
abbrev KVs := List (String × Py)

/-- First binding of a key in a dict's entry list (Python dicts never hold a
key twice, so the first binding is the binding). -/
def lookupKV : KVs → String → Option Py
  | [], _ => none
  | (k, v) :: rest, key => if k = key then some v else lookupKV rest key

/-- `d.get(k, dflt)` — only ever applied to dict values in the source. -/
def Py.getKey (d : Py) (k : String) (dflt : Py) : Py :=
  match d with
  | .pdict kvs => (lookupKV kvs k).getD dflt
  | _ => dflt

/-- Python truthiness of the modelled values. -/
def Py.truthy : Py → Bool
  | .pnone => false
  | .pbool b => b
  | .pint n => n != 0
  | .pfloat q => q != 0
  | .pstr s => !(s == "")
  | .plist xs => !xs.isEmpty
  | .pdict kvs => !kvs.isEmpty

/-- `d.setdefault(k, v)`: keep an existing binding, else append `(k, v)`. -/
def setdefaultKV (kvs : KVs) (k : String) (v : Py) : KVs :=
  if (lookupKV kvs k).isSome then kvs else kvs ++ [(k, v)]

/-- `d[k] = v`: overwrite in place, else append (Python dict assignment
preserves the position of an existing key). -/
def setKV : KVs → String → Py → KVs
  | [], k, v => [(k, v)]
  | (k', v') :: rest, k, v =>
      if k' = k then (k, v) :: rest else (k', v') :: setKV rest k v

/-- Values Qt accepts where a number is expected (`QPointF`, `setScale`,
`setRotation`): ints, floats, and bools (a Python bool is an int). -/
def asNum : Py → Option ℚ
  | .pint n => some (n : ℚ)
  | .pfloat q => some q
  | .pbool b => some (if b then 1 else 0)
  | _ => none

/-- A scene point (`QPointF`), with exact rational coordinates. -/
structure Pt where
  x : ℚ
  y : ℚ
deriving DecidableEq

/-- Squared euclidean distance; `QLineF(p, q).length() < c` is modelled as
`dist2 p q < c * c` (exact for any nonnegative threshold `c`). -/
def dist2 (p q : Pt) : ℚ :=
  (q.x - p.x) * (q.x - p.x) + (q.y - p.y) * (q.y - p.y)

/-- Per-class geometry parameters of the mark constructors. -/
inductive MarkShape where
  | circle (r : ℚ)
  | square (size : ℚ)
  | triangle (size : ℚ)
  | scurve (w h : ℚ)
  | note (text : String)
deriving DecidableEq

/-- A mark item.  Optional Python attributes (`internal_id`, `display_id`,
`defect_info`, `_attached_line`, `_line_anchor_scene_pos`) are `Option`s:
`none` means the attribute is absent on the object, `some Py.pnone` means it
holds Python `None`. -/
structure Mark where
  shape : MarkShape
  pos : Pt
  scaleV : ℚ := 1
  rotation : ℚ := 0
  internal_id : Option Py := none
  display_id : Option Py := none
  defect_info : Option Py := none
  line : Option (Pt × Pt) := none
  anchor : Option Pt := none
deriving DecidableEq

/-- `type(item).__name__`, the tag written by `SerializableMixin.to_dict`. -/
def markTypeName : MarkShape → String
  | .circle _ => "CircleMark"
  | .square _ => "SquareMark"
  | .triangle _ => "TriangleMark"
  | .scurve _ _ => "SCurveWithMidCircle"
  | .note _ => "NoteText"

/-- `CircleMark.MIN_SCALE = 0.6`. -/
def circleMinScale : ℚ := 3 / 5

/-- `CircleMark.MAX_SCALE = 2.5`. -/
def circleMaxScale : ℚ := 5 / 2

/-- The `ItemScaleChange` clamp in `CircleMark.itemChange`. -/
def clampCircleScale (s : ℚ) : ℚ :=
  if s < circleMinScale then circleMinScale
  else if s > circleMaxScale then circleMaxScale
  else s

/-- `item.setScale(s)`: the value a mark actually ends up with —
CircleMark saturates into `[MIN_SCALE, MAX_SCALE]`, other marks take `s`. -/
def applyScale (m : Mark) (s : ℚ) : Mark :=
  match m.shape with
  | .circle _ => { m with scaleV := clampCircleScale s }
  | _ => { m with scaleV := s }

/-- Abstract model of `ray_intersection_point`: from the mark's shape, scale,
rotation and scene position, and the ray's origin and target, the nearest
outline intersection (or `none`).  The numeric computation lives in Qt float
geometry; the claims quantify over its result. -/
def RayFn := MarkShape → ℚ → ℚ → Pt → Pt → Pt → Option Pt

/-- `a or b` where `a` is `QPointF`-or-`None`: PyQt's `QPointF` is falsy
exactly when it `isNull()` (both coordinates zero). -/
def orPt (p? : Option Pt) (dflt : Pt) : Pt :=
  match p? with
  | some p => if p = ⟨0, 0⟩ then dflt else p
  | none => dflt

/-- `_update_attached_line_geometry` (`BaseMarkMixin`): with an anchor and an
attached line present, redraw the line from the anchor to the ray
intersection toward the mark's current centre (falling back to the centre).
The body resolves `self.ray_intersection_point`, which only `CircleMark`
provides; this function models the successful call, and the `AttributeError`
a non-circle mark with both attributes set would raise is modelled at the
one call site that can reach it (`restoreItem` — every other call site only
ever sees non-circle marks with `anchor`/`line` unset, where the method
returns before the attribute is resolved). -/
def updateAttachedLine (ray : RayFn) (m : Mark) : Mark :=
  match m.anchor, m.line with
  | some a, some _ =>
      let c := m.pos
      { m with line := some (a, orPt (ray m.shape m.scaleV m.rotation m.pos a c) c) }
  | _, _ => m

/-- A freehand memo stroke: `MemoLine` endpoints, or the `MemoFreePath`
points (`QPainterPath(start)` followed by `lineTo`s, so never empty). -/
inductive Memo where
  | line (p1 p2 : Pt)
  | free (start : Pt) (rest : List Pt)
deriving DecidableEq

/-- The canvas contents relevant to snapshots: background path, serializable
marks and memo strokes, each in `scene.items()` order.  (The Qt scene
interleaves them in one z-ordered list; every snapshot operation treats the
two groups independently.) -/
structure Scene where
  bgPath : String
  marks : List Mark
  memos : List Memo
deriving DecidableEq

/-- `SerializableMixin.to_dict` plus the per-class additions.  Key order
follows the source: base keys, then `line`, `internal_id`, `display_id`,
`defect_info` when the attributes exist, then the shape fields.  Qt's
`boundingRect()` for the pen-stroked triangle and s-curve items pads the
geometry by the pen width (2 and 3 respectively); `CircleMark` overrides
`boundingRect` with the raw rect and `SquareMark` serialises `rect()`. -/
def markToDict (m : Mark) : Py :=
  Py.pdict
    ([("type", .pstr (markTypeName m.shape)),
      ("x", .pfloat m.pos.x), ("y", .pfloat m.pos.y),
      ("scale", .pfloat m.scaleV), ("rotation", .pfloat m.rotation)]
     ++ (match m.line with
         | some (p1, p2) =>
             [("line", .pdict [("p1", .plist [.pfloat p1.x, .pfloat p1.y]),
                               ("p2", .plist [.pfloat p2.x, .pfloat p2.y])])]
         | none => [])
     ++ (match m.internal_id with | some v => [("internal_id", v)] | none => [])
     ++ (match m.display_id with | some v => [("display_id", v)] | none => [])
     ++ (match m.defect_info with | some v => [("defect_info", v)] | none => [])
     ++ (match m.shape with
         | .circle r => [("radius", .pfloat r)]
         | .square s => [("size", .pfloat s)]
         | .triangle s => [("size", .pfloat (s + 2))]
         | .scurve w h => [("w", .pfloat (w + 3)), ("h", .pfloat (h + 3))]
         | .note t => [("text", .pstr t)]))

/-- Snapshot encoding of one memo stroke (`_make_snapshot`). -/
def memoToDict : Memo → Py
  | .line p1 p2 =>
      .pdict [("type", .pstr "memo_line"),
              ("p1", .plist [.pfloat p1.x, .pfloat p1.y]),
              ("p2", .plist [.pfloat p2.x, .pfloat p2.y])]
  | .free s rest =>
      .pdict [("type", .pstr "memo_free"),
              ("pts", .plist ((s :: rest).map (fun p => .plist [.pfloat p.x, .pfloat p.y])))]

/-- `FaultEditorDialog.get_defects`: every scene item with `to_dict`,
serialised in scene order. -/
def getDefects (sc : Scene) : Py :=
  .pdict [("items", .plist (sc.marks.map markToDict))]

/-- `FaultEditorWidget._make_snapshot`: the delegated item list, a version
tag, and the memo strokes gathered from the scene. -/
def makeSnapshot (sc : Scene) : Py :=
  .pdict [("items", .plist (sc.marks.map markToDict)),
          ("__version__", .pint 1),
          ("memos", .plist (sc.memos.map memoToDict))]

/-- `QPointF(*v)`: exactly two numeric entries, else a `TypeError`. -/
def parsePt : Py → Except Unit Pt
  | .plist [a, b] =>
      match asNum a, asNum b with
      | some x, some y => .ok ⟨x, y⟩
      | _, _ => .error ()
  | _ => .error ()

/-- `FaultEditorWidget.MARK_CLASSES`, the mark-class registry. -/
def markClassNames : List String :=
  ["CircleMark", "SquareMark", "TriangleMark", "SCurveWithMidCircle", "NoteText"]

/-- A value required to be numeric (`TypeError` otherwise). -/
def reqNum (v : Py) : Except Unit ℚ :=
  match asNum v with
  | some q => .ok q
  | none => .error ()

/-- The per-class `from_dict` shape reconstruction (position is read
separately): each class reads its geometry fields with the constructor's
defaults. -/
def fromDictShape (ty : String) (info : Py) : Except Unit MarkShape :=
  if ty = "CircleMark" then do
    let r ← reqNum (info.getKey "radius" (.pint 18))
    .ok (.circle r)
  else if ty = "SquareMark" then do
    let s ← reqNum (info.getKey "size" (.pint 36))
    .ok (.square s)
  else if ty = "TriangleMark" then do
    let s ← reqNum (info.getKey "size" (.pint 40))
    .ok (.triangle s)
  else if ty = "SCurveWithMidCircle" then do
    let w ← reqNum (info.getKey "w" (.pint 43))
    let h ← reqNum (info.getKey "h" (.pint 55))
    .ok (.scurve w h)
  else if ty = "NoteText" then
    match info.getKey "text" (.pstr "") with
    | .pstr t => .ok (.note t)
    | _ => .error ()
  else .error ()

/-- `info.get("x", 0)`, `info.get("y", 0)` fed to `QPointF`. -/
def parseXY (info : Py) : Except Unit Pt := do
  let x ← reqNum (info.getKey "x" (.pint 0))
  let y ← reqNum (info.getKey "y" (.pint 0))
  .ok ⟨x, y⟩

/-- The `"size"` sub-dict default keys installed by `setdefault`. -/
def defaultSizeInfo : Py :=
  .pdict [("width_mm", .pstr ""), ("length_m", .pstr ""), ("count_ea", .pstr "")]

/-- The `setdefault` chain `_restore_item` runs on a circle's defect info. -/
def installDefectDefaults (kvs : KVs) : KVs :=
  let kvs := setdefaultKV kvs "member" (.pstr "")
  let kvs := setdefaultKV kvs "location" (.pstr "")
  let kvs := setdefaultKV kvs "defect_type" (.pstr "")
  let kvs := setdefaultKV kvs "size" defaultSizeInfo
  let kvs := setdefaultKV kvs "progress" (.pbool false)
  setdefaultKV kvs "remark" (.pstr "")

/-- `FaultEditorWidget._restore_item` on one record.  Returns `ok none` when
the record is silently skipped (type tag unknown to `MARK_CLASSES`), `ok
(some mark)` when a mark is reconstructed, and `error` when the Python code
raises (`info["type"]` on a record without the key, non-numeric geometry
fields fed to Qt, `setdefault` on a non-dict defect info, a non-string text
fed to `QGraphicsTextItem`, a malformed `line` record, ...).  Reattaching a
persisted `line` ends in `item._update_attached_line_geometry()` with both
the anchor and the line set, which calls `self.ray_intersection_point`
unguarded — an attribute only `CircleMark` (via `GeometryRayMixin`) has, so
a non-circle record with a truthy `line` field raises `AttributeError`. -/
def restoreItem (ray : RayFn) (info : Py) : Except Unit (Option Mark) :=
  match info with
  | .pdict kvs0 =>
    match lookupKV kvs0 "type" with
    | none => Except.error ()
    | some (.plist _) => Except.error ()
    | some (.pdict _) => Except.error ()
    | some .pnone => Except.ok none
    | some (.pbool _) => Except.ok none
    | some (.pint _) => Except.ok none
    | some (.pfloat _) => Except.ok none
    | some (.pstr ty) =>
      if ty ∈ markClassNames then do
        let p ← parseXY info
        let shape ← fromDictShape ty info
        let isCircle := ty = "CircleMark"
        let scl ← reqNum (info.getKey "scale" (.pfloat 1))
        let scl := if isCircle then clampCircleScale scl else scl
        let rot ← reqNum (info.getKey "rotation" (.pint 0))
        let iid := info.getKey "internal_id" .pnone
        let did := info.getKey "display_id" .pnone
        let dinfoRaw := info.getKey "defect_info" (.pdict [])
        let dinfo ←
          if isCircle then do
            let di := if dinfoRaw.truthy then dinfoRaw else .pdict []
            match di with
            | .pdict kvs =>
                let kvs := installDefectDefaults kvs
                if did.truthy then
                  match lookupKV kvs "member" with
                  | some (.pstr _) => Except.ok (Py.pdict kvs)
                  | some _ => Except.error ()
                  | none => Except.ok (Py.pdict kvs)
                else Except.ok (Py.pdict kvs)
            | _ => Except.error ()
          else
            if did.truthy then
              match did with
              | .pstr _ => Except.ok dinfoRaw
              | _ => Except.error ()
            else Except.ok dinfoRaw
        let m : Mark :=
          { shape := shape, pos := p, scaleV := scl, rotation := rot,
            internal_id := some iid, display_id := some did,
            defect_info := some dinfo }
        let lineData := info.getKey "line" .pnone
        if lineData.truthy then do
          let p1v ←
            (match lineData with
             | .pdict kvs =>
                 (match lookupKV kvs "p1" with
                  | some v => Except.ok v
                  | none => Except.error ())
             | _ => Except.error ())
          let p2v ←
            (match lineData with
             | .pdict kvs =>
                 (match lookupKV kvs "p2" with
                  | some v => Except.ok v
                  | none => Except.error ())
             | _ => Except.error ())
          let p1 ← parsePt p1v
          let p2 ← parsePt p2v
          if isCircle then
            .ok (some (updateAttachedLine ray { m with line := some (p1, p2), anchor := some p1 }))
          else
            -- AttributeError: no ray_intersection_point outside CircleMark
            .error ()
        else
          .ok (some m)
      else
        .ok none
  | _ => Except.error ()

/-- Restore a list of item records in order, dropping skipped ones; any raise
aborts the whole restoration. -/
def restoreItems (ray : RayFn) : List Py → Except Unit (List Mark)
  | [] => .ok []
  | r :: rs => do
      let m? ← restoreItem ray r
      let rest ← restoreItems ray rs
      match m? with
      | some m => .ok (m :: rest)
      | none => .ok rest

/-- Parse a list of 2-point records (`QPointF(*xy)` for each). -/
def parsePts : List Py → Except Unit (List Pt)
  | [] => .ok []
  | v :: rest => do
      let p ← parsePt v
      let ps ← parsePts rest
      .ok (p :: ps)

/-- Memo restoration in `_restore_snapshot`: records whose `type` is neither
memo tag, and `memo_free` records with an empty/falsy point list, are
skipped; malformed point data raises. -/
def restoreMemo (m : Py) : Except Unit (Option Memo) :=
  match m with
  | .pdict kvs =>
      if (lookupKV kvs "type").getD .pnone = .pstr "memo_line" then do
        let p1v ← (match lookupKV kvs "p1" with | some v => Except.ok v | none => Except.error ())
        let p2v ← (match lookupKV kvs "p2" with | some v => Except.ok v | none => Except.error ())
        let p1 ← parsePt p1v
        let p2 ← parsePt p2v
        .ok (some (.line p1 p2))
      else if (lookupKV kvs "type").getD .pnone = .pstr "memo_free" then
        let ptsv := (lookupKV kvs "pts").getD .pnone
        let pts := match ptsv with | .plist xs => xs | _ => []
        match pts with
        | [] => .ok none
        | first :: rest => do
            let p0 ← parsePt first
            let ps ← parsePts rest
            .ok (some (.free p0 ps))
      else .ok none
  | _ => .error ()

/-- Restore a list of memo records in order. -/
def restoreMemos : List Py → Except Unit (List Memo)
  | [] => .ok []
  | r :: rs => do
      let m? ← restoreMemo r
      let rest ← restoreMemos rs
      match m? with
      | some m => .ok (m :: rest)
      | none => .ok rest

/-- `FaultEditorWidget._restore_snapshot`: reload the background (snapshots
made by `_make_snapshot` carry no `image` key, so the current background is
kept; the pixmap is assumed to load), clear the scene, then rebuild items and
memos from the records. -/
def restoreSnapshot (ray : RayFn) (cur : Scene) (snap : Py) : Except Unit Scene := do
  let img ←
    (match snap.getKey "image" (.pstr cur.bgPath) with
     | .pstr s => Except.ok s
     | _ => Except.error ())
  let itemRecs ←
    (match snap.getKey "items" (.plist []) with
     | .plist xs => Except.ok xs
     | _ => Except.error ())
  let marks ← restoreItems ray itemRecs
  let memoRecs ←
    (match snap.getKey "memos" (.plist []) with
     | .plist xs => Except.ok xs
     | _ => Except.error ())
  let memos ← restoreMemos memoRecs
  .ok { bgPath := img, marks := marks, memos := memos }

/-! ### Circle-id renumbering (`_renumber_circle_ids`) -/

/-- The filter in `_renumber_circle_ids`: `CircleMark`s whose `display_id`
is an int. -/
def isIntCircle (m : Mark) : Bool :=
  match m.shape, m.display_id with
  | .circle _, some (.pint _) => true
  | _, _ => false

/-- The sort key `lambda c: c.display_id` of a renumberable circle. -/
def circleKeyOf (m : Mark) : Option Int :=
  match m.shape, m.display_id with
  | .circle _, some (.pint n) => some n
  | _, _ => none

/-- The int display ids of the renumberable circles, in scene order. -/
def circleKeys (marks : List Mark) : List Int :=
  marks.filterMap circleKeyOf

/-- The circles tagged with their position, sorted by display id.  Both
`List.insertionSort` and Python's `list.sort` are stable, so they produce
the same order. -/
def sortedEntries (keys : List Int) : List (Nat × Int) :=
  List.insertionSort (fun a b => a.2 ≤ b.2) keys.enum

/-- Position of the first occurrence of an entry in a list (the entries we
search for are duplicate-free, so this is the position). -/
def posIn (e : Nat × Int) : List (Nat × Int) → Nat
  | [] => 0
  | x :: rest => if x = e then 0 else posIn e rest + 1

/-- New id of each circle (scene order): its position in the sorted order,
counted from 1 (`enumerate(circles, start=1)`). -/
def newIds (keys : List Int) : List Nat :=
  keys.enum.map (fun e => posIn e (sortedEntries keys) + 1)

/-- `set_circle_id(n)` as far as persistent state goes: the display id
becomes the int `n` (the centred numeral is display-only). -/
def setCircleId (m : Mark) (n : Nat) : Mark :=
  { m with display_id := some (.pint (n : Int)) }

/-- Distribute the new ids over the renumberable circles in scene order. -/
def assignIds : List Mark → List Nat → List Mark
  | [], _ => []
  | m :: ms, ids =>
      if isIntCircle m then
        match ids with
        | n :: rest => setCircleId m n :: assignIds ms rest
        | [] => m :: ms
      else m :: assignIds ms ids

/-- `FaultEditorWidget._renumber_circle_ids`: sort the int-keyed circles by
display id and hand out `1, 2, ...` in that order. -/
def renumberCircleIds (marks : List Mark) : List Mark :=
  assignIds marks (newIds (circleKeys marks))

/-- `isinstance(item, CircleMark)`. -/
def isCircleMark (m : Mark) : Bool :=
  match m.shape with
  | .circle _ => true
  | _ => false

/-- Number of `CircleMark`s in the scene. -/
def circleCount (marks : List Mark) : Nat :=
  (marks.filter isCircleMark).length

/-! ### Undo/redo history (`_begin_edit` / `_end_edit` / `undo` / `redo`) -/

/-- The history-relevant widget state plus the dialog's dirty flag
(`FaultEditorDialog._dirty`, set through `mark_dirty`). -/
structure Hist where
  editing : Bool
  undoBlock : Bool
  undoStack : List Py
  redoStack : List Py
  parentDirty : Bool
deriving DecidableEq

/-- `_begin_edit`. -/
def beginEdit (h : Hist) : Hist :=
  if h.undoBlock then h else { h with editing := true }

/-- `mark_dirty` propagated to the dialog (idempotent flag set). -/
def markDirty (h : Hist) : Hist := { h with parentDirty := true }

/-- `_end_edit`, given the snapshot of the current scene: a no-op during an
undo/redo replay or without an open session; otherwise push the snapshot when
the stack is empty or its top differs, clearing the redo stack and notifying
the parent. -/
def histEndEdit (snap : Py) (h : Hist) : Hist :=
  if h.undoBlock then h
  else if !h.editing then h
  else if h.undoStack.getLast? = some snap then { h with editing := false }
  else
    { h with undoStack := h.undoStack ++ [snap], redoStack := [],
             parentDirty := true, editing := false }

/-- The widget state the history operations touch. -/
structure EdState where
  scene : Scene
  hist : Hist
deriving DecidableEq

/-- `_end_edit` on the widget. -/
def endEdit (st : EdState) : EdState :=
  { st with hist := histEndEdit (makeSnapshot st.scene) st.hist }

/-- `FaultEditorWidget.undo`: with fewer than 2 entries, silently ignored;
otherwise pop the top to the redo stack, rebuild the scene from the new top
and call `mark_dirty` (a raise during restoration propagates). -/
def undo (ray : RayFn) (st : EdState) : Except Unit EdState :=
  if st.hist.undoStack.length < 2 then .ok st
  else
    let stack' := st.hist.undoStack.dropLast
    let current := (st.hist.undoStack.getLast?).getD .pnone
    match restoreSnapshot ray st.scene ((stack'.getLast?).getD .pnone) with
    | .error e => .error e
    | .ok sc =>
        let h := { st.hist with undoStack := stack', redoStack := st.hist.redoStack ++ [current], undoBlock := false, parentDirty := true }
        .ok { scene := sc, hist := h }

/-- `FaultEditorWidget.redo`: with an empty redo stack, silently ignored;
otherwise move the snapshot back to the undo stack, restore it and call
`mark_dirty`. -/
def redo (ray : RayFn) (st : EdState) : Except Unit EdState :=
  match st.hist.redoStack.getLast? with
  | none => .ok st
  | some snap =>
      match restoreSnapshot ray st.scene snap with
      | .error e => .error e
      | .ok sc =>
          let h := { st.hist with undoStack := st.hist.undoStack ++ [snap], redoStack := st.hist.redoStack.dropLast, undoBlock := false, parentDirty := true }
          .ok { scene := sc, hist := h }

/-! ### Pointer state machine (`_on_mouse_press` / `_begin_drag_create` /
`_on_mouse_double_click` / `_on_mouse_release`) -/

/-- `EditMode`. -/
inductive EMode where
  | select
  | areaSelect
deriving DecidableEq

/-- `DragMode`. -/
inductive DMode where
  | dnone
  | create
  | move
  | moveAnchor
deriving DecidableEq

/-- What a scene entry is, for hit-testing purposes: a serializable mark, a
child item of the mark at index `owner` (id numeral, defect label, s-curve
mid circle), a memo stroke, an attached leader line, the anchor handle, or
the background pixmap. -/
inductive SKind where
  | markTop (m : Mark)
  | markChild (owner : Nat)
  | memoLineItem (p1 p2 : Pt)
  | memoFreeItem (start : Pt) (rest : List Pt)
  | leaderLine
  | anchorHandle
  | background

/-- A scene item with its hit region (`QGraphicsScene` resolves `itemAt` /
`items(pos)` from the items' shapes; the region is kept abstract as a
point predicate). -/
structure SItem where
  kind : SKind
  region : Pt → Bool

/-- All items under a point, topmost first (the model's item list is kept in
descending stacking order, the order `scene.items()` reports). -/
def itemsAt (items : List SItem) (p : Pt) : List SItem :=
  items.filter (fun it => it.region p)

/-- `scene.itemAt(pos, QTransform())`: the topmost item under the point. -/
def itemAt (items : List SItem) (p : Pt) : Option SItem :=
  (itemsAt items p).head?

/-- Walking the parent chain looking for `to_dict`: mark items and their
child items reach a serializable mark; memos, leader lines, the anchor
handle and the background do not. -/
def chainHasToDict : SKind → Bool
  | .markTop _ => true
  | .markChild _ => true
  | _ => false

/-- `_can_create_at`: only the topmost item's parent chain is inspected. -/
def canCreateAt (items : List SItem) (p : Pt) : Bool :=
  match itemAt items p with
  | some it => !chainHasToDict it.kind
  | none => true

/-- `_find_shape_at`: scan every item under the point in stacking order and
return (the index of) the first serializable mark reached through a parent
chain. -/
def findShapeAt (items : List SItem) (p : Pt) : Option Nat :=
  (List.filter (fun e => e.2.region p) items.enum).findSome? (fun e =>
    match e.2.kind with
    | .markTop _ => some e.1
    | .markChild o => some o
    | _ => none)

/-- The in-progress CREATE item.  (In Qt it already sits in the scene during
the gesture; the model keeps it in this register and materialises it into
the item list on commit — the claims only inspect the scene at gesture
boundaries, and snapshots taken after a cancel never contain it.) -/
inductive CItem where
  | cMemoLine (p1 p2 : Pt)
  | cMemoFree (start : Pt) (rest : List Pt)
  | cCircle (m : Mark)

/-- The controller state of `FaultEditorWidget` used by the pointer
handlers. -/
structure CState where
  items : List SItem
  bgPath : String
  bgLoaded : Bool
  tool : String
  editMode : EMode
  dragMode : DMode
  creating : Option CItem
  dragIdx : Option Nat
  pressPos : Option Pt
  pressing : Bool
  pendingPressPos : Option Pt
  hist : Hist
  anchorVisible : Bool
  anchorTargetIdx : Option Nat
  anchorRadiusScene : ℚ
  timerPending : Bool
  nextDefectIndex : Int

/-- The serializable marks currently in the scene, in order. -/
def sceneMarks (items : List SItem) : List Mark :=
  items.filterMap (fun it =>
    match it.kind with
    | .markTop m => some m
    | _ => none)

/-- The memo strokes currently in the scene, in order. -/
def sceneMemos (items : List SItem) : List Memo :=
  items.filterMap (fun it =>
    match it.kind with
    | .memoLineItem p1 p2 => some (.line p1 p2)
    | .memoFreeItem s rest => some (.free s rest)
    | _ => none)

/-- The snapshot-relevant scene contents of a controller state. -/
def stScene (st : CState) : Scene :=
  { bgPath := st.bgPath, marks := sceneMarks st.items, memos := sceneMemos st.items }

/-- The anchor of the mark at item index `i`, when it is a mark with one. -/
def anchorAt (items : List SItem) (i : Nat) : Option Pt :=
  match items.get? i with
  | some it =>
      (match it.kind with
       | .markTop m => m.anchor
       | _ => none)
  | none => none

/-- `_is_basic_shape`. -/
def isBasicShape (tool : String) : Bool :=
  tool ∈ ["circle", "rect", "tri", "s", "text"]

/-- Whether a topmost hit is a raw memo item (`isinstance(raw, (MemoLine,
MemoFreePath))`). -/
def isMemoKind : SKind → Bool
  | .memoLineItem _ _ => true
  | .memoFreeItem _ _ => true
  | _ => false

/-- `_reset_mouse_drag` (the per-item once-flags are display-only). -/
def resetDrag (st : CState) : CState :=
  { st with dragMode := .dnone, pressPos := none, creating := none, dragIdx := none }

/-- The defect record installed by `_init_defect_for_item` on circles. -/
def defaultDefectInfo : Py :=
  .pdict [("member", .pstr "벽체"), ("location", .pstr ""), ("defect_type", .pstr ""),
          ("size", defaultSizeInfo), ("progress", .pbool false), ("remark", .pstr "")]

/-- `_init_defect_for_item`: a fresh uuid for every mark; circles also get
the next display id, the default defect record and their label.  Returns the
initialised mark and the next-id counter. -/
def initDefect (uuid : String) (nextIdx : Int) (m : Mark) : Mark × Int :=
  let m := { m with internal_id := some (.pstr uuid) }
  match m.shape with
  | .circle _ =>
      ({ m with display_id := some (.pint nextIdx),
                defect_info := some defaultDefectInfo }, nextIdx + 1)
  | _ => (m, nextIdx)

/-- The mark constructed for a tool at the double-click point
(constructor defaults from the source). -/
def newMarkForTool (tool : String) (p : Pt) : Option Mark :=
  if tool = "circle" then some { shape := .circle 18, pos := p }
  else if tool = "rect" then some { shape := .square 36, pos := p }
  else if tool = "tri" then some { shape := .triangle 40, pos := p }
  else if tool = "s" then some { shape := .scurve 43 55, pos := p }
  else if tool = "text" then some { shape := .note "하자", pos := p }
  else none

/-- The tail of `_on_mouse_press` after the anchor-handle grab and the raw
memo check: find a shape under the point, enter MOVE on it, or arm
creation.  (Selection changes are display-only and not tracked; the
`isinstance(hit, (MemoLine, MemoFreePath))` test on the `_find_shape_at`
result is dead code, since memos have no `to_dict`.) -/
def pressCore (st : CState) (p : Pt) : CState × Bool :=
  match findShapeAt st.items p with
  | some i =>
      if st.editMode = .select then
        ({ st with hist := beginEdit st.hist, dragMode := .move, dragIdx := some i }, false)
      else (st, false)
  | none =>
      if st.editMode = .select then
        if st.tool = "memo_line" then
          ({ st with pressing := false, pendingPressPos := none,
                     hist := beginEdit st.hist, dragMode := .create,
                     pressPos := some p, creating := some (.cMemoLine p p) }, true)
        else if st.tool = "memo_free" then
          ({ st with pressing := false, pendingPressPos := none,
                     hist := beginEdit st.hist, dragMode := .create,
                     pressPos := some p, creating := some (.cMemoFree p []) }, true)
        else
          ({ st with pressing := true, pendingPressPos := some p }, false)
      else (st, false)

/-- The anchor-handle grab test at the head of `_on_mouse_press`: the handle
is visible, attached to a mark, and the press lands within its radius. -/
def anchorGrab (st : CState) (p : Pt) : Option Nat :=
  if st.anchorVisible then
    match st.anchorTargetIdx with
    | some i =>
        (match anchorAt st.items i with
         | some a =>
             if dist2 p a ≤ st.anchorRadiusScene * st.anchorRadiusScene then some i
             else none
         | none => none)
    | none => none
  else none

/-- `_on_mouse_press` (left button): anchor-handle grab into MOVE_ANCHOR,
then the raw-memo selection early-out, then `pressCore`.  Returns the state
and whether the event was handled. -/
def onMousePress (st : CState) (p : Pt) : CState × Bool :=
  if !st.bgLoaded then (st, false)
  else
    match anchorGrab st p with
    | some i =>
        ({ st with hist := beginEdit st.hist, dragMode := .moveAnchor, dragIdx := some i }, true)
    | none =>
        match itemAt st.items p with
        | some it => if isMemoKind it.kind then (st, true) else pressCore st p
        | none => pressCore st p

/-- `_begin_drag_create` (the 500 ms press-hold timer firing): only for the
circle tool, from an idle drag state in SELECT mode, while still pressing on
a recorded press point (a press at the null point is falsy and aborts, like
the source's `not self._pending_press_pos`). -/
def beginDragCreate (st : CState) : CState :=
  if st.tool ≠ "circle" then st
  else if st.dragMode ≠ .dnone then st
  else if st.editMode ≠ .select then st
  else if !st.pressing then st
  else
    match st.pendingPressPos with
    | none => st
    | some p =>
        if p = ⟨0, 0⟩ then st
        else
          let c : Mark :=
            { shape := .circle 18, pos := p,
              display_id := some (.pint st.nextDefectIndex),
              anchor := some p, line := some (p, p) }
          { st with hist := beginEdit st.hist, pressing := false, pendingPressPos := none,
                    dragMode := .create, pressPos := some p, creating := some (.cCircle c) }

/-- `_on_mouse_double_click` (left button).  `uuid` is the fresh
`uuid.uuid4()` drawn by `_init_defect_for_item`, `newRegion` the Qt hit
region of the freshly constructed item. -/
def onDoubleClick (uuid : String) (newRegion : Pt → Bool) (st : CState) (p : Pt) :
    CState × Bool :=
  let st := { st with pressing := false, pendingPressPos := none }
  if !st.bgLoaded then (st, false)
  else if !isBasicShape st.tool then (st, false)
  else if st.editMode ≠ .select then (st, false)
  else if !canCreateAt st.items p then (st, false)
  else
    match newMarkForTool st.tool p with
    | none => (st, false)
    | some mark =>
        let mn := initDefect uuid st.nextDefectIndex mark
        let st' := { st with hist := beginEdit st.hist,
                             items := { kind := .markTop mn.1, region := newRegion } :: st.items,
                             nextDefectIndex := mn.2 }
        ({ st' with hist := markDirty (histEndEdit (makeSnapshot (stScene st')) st'.hist) }, true)

/-- Replace the mark stored at item index `i` (in-place mutation of the
dragged item). -/
def setMarkAt : List SItem → Nat → (Mark → Mark) → List SItem
  | [], _, _ => []
  | it :: rest, 0, f =>
      (match it.kind with
       | .markTop m => { it with kind := .markTop (f m) }
       | _ => it) :: rest
  | it :: rest, n + 1, f => it :: setMarkAt rest n f

/-- `_on_mouse_move` for the drag modes (hover handling is display-only).
During MOVE the translation itself is Qt's native drag; the controller hook
re-syncs the leader line and label.  During MOVE_ANCHOR the anchor is
reassigned to the pointer.  During CREATE the memo geometry follows the
pointer directly and the circle is moved with its line recomputed. -/
def onMouseMove (ray : RayFn) (st : CState) (q : Pt) : CState :=
  match st.dragMode with
  | .dnone => st
  | .moveAnchor =>
      (match st.dragIdx with
       | some i =>
           let items' := setMarkAt st.items i (fun m => updateAttachedLine ray { m with anchor := some q })
           { st with items := items' }
       | none => st)
  | .move =>
      (match st.dragIdx with
       | some i => { st with items := setMarkAt st.items i (updateAttachedLine ray) }
       | none => st)
  | .create =>
      (match st.creating with
       | some (.cMemoLine p1 _) =>
           { st with creating := some (.cMemoLine ((st.pressPos).getD p1) q) }
       | some (.cMemoFree s rest) =>
           { st with creating := some (.cMemoFree s (rest ++ [q])) }
       | some (.cCircle m) =>
           { st with creating := some (.cCircle (updateAttachedLine ray { m with pos := q })) }
       | none => st)

/-- `MIN_MEMO_LINE_LEN = 8.0` (thresholds are compared on squared lengths
in the model, which is exact for nonnegative bounds). -/
def minMemoLineLen : ℚ := 8

/-- `MIN_MEMO_PATH_SIZE = 6.0`. -/
def minMemoPathSize : ℚ := 6

/-- Bounding-box extents of a free path's points (exact for a polyline's
`QPainterPath.boundingRect`). -/
def ptsBound (s : Pt) (rest : List Pt) : ℚ × ℚ :=
  let xs := (s :: rest).map Pt.x
  let ys := (s :: rest).map Pt.y
  ((xs.foldl max s.x) - (xs.foldl min s.x), (ys.foldl max s.y) - (ys.foldl min s.y))

/-- The undersized test for a `MemoFreePath`: both extents under 6. -/
def memoPathTooSmall (s : Pt) (rest : List Pt) : Bool :=
  (ptsBound s rest).1 < minMemoPathSize ∧ (ptsBound s rest).2 < minMemoPathSize

/-- `_min_line_length_for_item`: `max(width, height of bounding rect) + 10`.
For the drag-created circle the (local, unscaled) bounding rect is `2r`
square. -/
def minLineLenFor (m : Mark) : ℚ :=
  match m.shape with
  | .circle r => r + r + 10
  | .square s => s + 10
  | .triangle s => s + 10
  | .scurve w h => max w h + 10
  | .note _ => 10

/-- The first undersized test in `_on_mouse_release`: the dragged item is a
`MemoLine` shorter than 8 units. -/
def memoLineTooShort (c : Option CItem) : Bool :=
  match c with
  | some (.cMemoLine p1 p2) => dist2 p1 p2 < minMemoLineLen * minMemoLineLen
  | _ => false

/-- The second undersized test: the dragged item is a `MemoFreePath` whose
bounding box fits under 6×6. -/
def memoFreeTooSmall (c : Option CItem) : Bool :=
  match c with
  | some (.cMemoFree s rest) => memoPathTooSmall s rest
  | _ => false

/-- `_on_mouse_release` (left button).  `uuid` and `newRegion` play the same
role as in `onDoubleClick`. -/
def onMouseRelease (ray : RayFn) (uuid : String) (newRegion : Pt → Bool)
    (st : CState) (q : Pt) : CState :=
  if memoLineTooShort st.creating then
    -- too short: scene.removeItem; _end_edit; _reset_mouse_drag
    resetDrag { st with creating := none,
                        hist := histEndEdit (makeSnapshot (stScene st)) st.hist }
  else if memoFreeTooSmall st.creating then
    resetDrag { st with creating := none,
                        hist := histEndEdit (makeSnapshot (stScene st)) st.hist }
  else if st.dragMode = .move ∨ st.dragMode = .moveAnchor then
    let st :=
      if st.dragMode = .move then
        match st.dragIdx with
        | some i => { st with items := setMarkAt st.items i (updateAttachedLine ray) }
        | none => st
      else st
    { st with timerPending := true, dragMode := .dnone, dragIdx := none,
              hist := markDirty st.hist }
  else
    let st := { st with pressing := false, pendingPressPos := none }
    if st.dragMode = .create then
      match st.creating with
      | some (.cMemoLine p1 p2) =>
          -- memo CREATE commit: the stroke stays in the scene
          let st' := { st with items := { kind := .memoLineItem p1 p2, region := newRegion } :: st.items,
                               creating := none }
          resetDrag { st' with
            hist := markDirty (histEndEdit (makeSnapshot (stScene st')) st'.hist) }
      | some (.cMemoFree s rest) =>
          let st' := { st with items := { kind := .memoFreeItem s rest, region := newRegion } :: st.items,
                               creating := none }
          resetDrag { st' with
            hist := markDirty (histEndEdit (makeSnapshot (stScene st')) st'.hist) }
      | some (.cCircle m) =>
          let pp := (st.pressPos).getD ⟨0, 0⟩
          let ml := minLineLenFor m
          if dist2 pp q < ml * ml then
            -- cancel_attach + removeItem + _reset_mouse_drag, without _end_edit
            resetDrag { st with creating := none }
          else
            let m2 := updateAttachedLine ray { m with pos := q }
            let mn := initDefect uuid st.nextDefectIndex m2
            let st' := { st with items := { kind := .markTop mn.1, region := newRegion } :: st.items,
                                 nextDefectIndex := mn.2, creating := none }
            resetDrag { st' with
              hist := markDirty (histEndEdit (makeSnapshot (stScene st')) st'.hist) }
      | none => st
    else st

/-! ### Mark-level geometry operations (leader-line invariant) -/

/-- The geometry operations a placed mark with an attached line undergoes:
a MOVE-drag step (Qt translation plus the controller's line re-sync), a
Ctrl+wheel scale step (`setScale(scale() * factor)`, which only clamps —
no line re-sync fires on a scale change), a rotation set, and a
MOVE_ANCHOR-drag step (the only path that reassigns the anchor). -/
inductive MarkOp where
  | move (p : Pt)
  | scaleBy (f : ℚ)
  | rotateTo (r : ℚ)
  | anchorDrag (p : Pt)

/-- Apply one operation. -/
def applyMarkOp (ray : RayFn) (m : Mark) : MarkOp → Mark
  | .move p => updateAttachedLine ray { m with pos := p }
  | .scaleBy f => applyScale m (m.scaleV * f)
  | .rotateTo r => { m with rotation := r }
  | .anchorDrag p => updateAttachedLine ray { m with anchor := some p }

/-- Apply a sequence of operations. -/
def applyMarkOps (ray : RayFn) (m : Mark) (ops : List MarkOp) : Mark :=
  ops.foldl (applyMarkOp ray) m

/-- An operation that is not an anchor drag. -/
def notAnchorDrag : MarkOp → Prop
  | .anchorDrag _ => False
  | _ => True

/-! ### `models.py`: `Project.from_dict` legacy migration -/

/-- A sub-part dict as fed to `Project.from_dict`.  `none` models an absent
key (or, where `.get` defaults make them indistinguishable, a `None`
value); dict-valued fields carry their entries. -/
structure SubPartD where
  idKey : Option String := none
  nameKey : Option String := none
  imagePathKey : Option String := none
  inspectionsKey : Option KVs := none
  defectsKey : Option KVs := none

/-- A part dict as fed to `Project.from_dict`. -/
structure PartD where
  idKey : Option String := none
  nameKey : Option String := none
  subpartsKey : Option (List SubPartD) := none
  imagePathKey : Option String := none
  defectsKey : Option KVs := none

/-- A project dict as fed to `Project.from_dict` (building data is
independent of the migration logic and omitted from this record). -/
structure ProjectD where
  idKey : Option String := none
  partsKey : Option (List PartD) := none

/-- The `SubPart` dataclass (migration-relevant fields). -/
structure SubPartM where
  id : String
  name : String
  image_path : String
  inspections : KVs
deriving DecidableEq

/-- The `Part` dataclass. -/
structure PartM where
  id : String
  name : String
  subparts : List SubPartM
deriving DecidableEq

/-- The `Project` dataclass (parts only; see `ProjectD`). -/
structure ProjectM where
  id : String
  parts : List PartM
deriving DecidableEq

/-- The entries of a dict value; a falsy value contributes no entries
(`dict(v or {})` — truthy non-dicts raise and are unreachable on data the
loader accepts). -/
def dictEntriesOf : Py → KVs
  | .pdict kvs => kvs
  | _ => []

/-- One entry of `normalize_subpart_inspections`: `None` becomes an empty
defect set; a dict without `defects` is reinterpreted as the defect mapping
itself; a dict with `defects` gets that value coerced to a dict copy. -/
def normalizeInspVal : Py → Py
  | .pnone => .pdict [("defects", .pdict [])]
  | .pdict entries =>
      (match lookupKV entries "defects" with
       | none => .pdict [("defects", .pdict entries)]
       | some dv => .pdict (setKV entries "defects" (.pdict (dictEntriesOf dv))))
  | v => v

/-- `normalize_subpart_inspections` over all inspections. -/
def normalizeInspections (insp : KVs) : KVs :=
  insp.map (fun e => (e.1, normalizeInspVal e.2))

/-- The sub-part conversion inside `Project.from_dict` (new-structure
branch): read the fields, migrate a legacy direct `defects` mapping into a
`"DEFAULT"` inspection when no inspections exist, then normalize. -/
def convSubPart (newId : String → String) (sp : SubPartD) : SubPartM :=
  let insp := (sp.inspectionsKey).getD []
  let insp :=
    match sp.defectsKey with
    | some legacy =>
        if insp.isEmpty then [("DEFAULT", Py.pdict [("defects", Py.pdict legacy)])]
        else insp
    | none => insp
  { id := (sp.idKey).getD (newId "subpart"),
    name := (sp.nameKey).getD "",
    image_path := (sp.imagePathKey).getD "",
    inspections := normalizeInspections insp }

/-- The part conversion inside `Project.from_dict`: with `subparts` present
convert each; otherwise synthesise one sub-part from the part's own
`image_path`/`defects` with a `"DEFAULT"` inspection. -/
def convPart (newId : String → String) (p : PartD) : PartM :=
  match p.subpartsKey with
  | some sps =>
      { id := (p.idKey).getD (newId "part"),
        name := (p.nameKey).getD "",
        subparts := sps.map (convSubPart newId) }
  | none =>
      let legacy := (p.defectsKey).getD []
      let sp : SubPartM :=
        { id := newId "subpart",
          name := (p.nameKey).getD "",
          image_path := (p.imagePathKey).getD "",
          inspections :=
            normalizeInspections [("DEFAULT", Py.pdict [("defects", Py.pdict legacy)])] }
      { id := (p.idKey).getD (newId "part"),
        name := (p.nameKey).getD "",
        subparts := [sp] }

/-- `Project.from_dict` (`newId` stands in for the `uuid`-based `new_id`). -/
def projectFromDict (newId : String → String) (d : ProjectD) : ProjectM :=
  { id := (d.idKey).getD (newId "proj"),
    parts := ((d.partsKey).getD []).map (convPart newId) }

/-! ### Claim-support definitions -/

/-- A ray function that never finds an intersection (the always-fallback
case); used to instantiate theorems on concrete inputs. -/
def noRay : RayFn := fun _ _ _ _ _ _ => none

/-- The exact circle-outline intersection for the axis-aligned
configuration: a circle of local radius `r` at scale `s` centred at `pos`
is hit by the rightward ray from `start` (same `y`, strictly left of the
outline) at `(pos.x - r * s, pos.y)`.  This is what
`ray_intersection_point` computes there (its flattened outline passes
through that point), restricted to a rational special case. -/
def rayCircleAxis : RayFn := fun shape s _rot pos start _toward =>
  match shape with
  | .circle r =>
      if start.y = pos.y ∧ start.x < pos.x - r * s then some ⟨pos.x - r * s, pos.y⟩
      else none
  | _ => none

/-- The per-mark data claim C2 compares: internal id, position, scale,
rotation and defect info. -/
def markTuple (m : Mark) : Option Py × Pt × ℚ × ℚ × Option Py :=
  (m.internal_id, m.pos, m.scaleV, m.rotation, m.defect_info)

/-- Marks as the editor itself creates and restores them: the `internal_id`
attribute exists; circles carry an int display id, a complete defect-info
dict (all `setdefault` keys present, `member` a string) and an in-range
scale; other marks carry a `defect_info` attribute, a display id that is
absent, `None`, or a string, and no attached leader line (only circles can
reattach one — every creation path that draws a line is a circle path, and
restoring a non-circle record with a `line` field raises). -/
def canonicalMark (m : Mark) : Prop :=
  match m.shape with
  | .circle _ =>
      (∃ v, m.internal_id = some v) ∧
      (∃ n : Int, m.display_id = some (.pint n)) ∧
      (∃ kvs : KVs, m.defect_info = some (.pdict kvs) ∧
        (∃ s, lookupKV kvs "member" = some (.pstr s)) ∧
        (lookupKV kvs "location").isSome = true ∧
        (lookupKV kvs "defect_type").isSome = true ∧
        (lookupKV kvs "size").isSome = true ∧
        (lookupKV kvs "progress").isSome = true ∧
        (lookupKV kvs "remark").isSome = true) ∧
      circleMinScale ≤ m.scaleV ∧ m.scaleV ≤ circleMaxScale
  | _ =>
      (∃ v, m.internal_id = some v) ∧
      (m.display_id = none ∨ m.display_id = some .pnone ∨ ∃ s, m.display_id = some (.pstr s)) ∧
      (∃ v, m.defect_info = some v) ∧
      m.line = none

/-- Concrete circle used to instantiate scale-clamp statements. -/
def c7Demo : Mark := { shape := .circle 18, pos := ⟨0, 0⟩ }

/-- Concrete empty scene used to instantiate the history theorems. -/
def emptyScene : Scene := { bgPath := "plan.png", marks := [], memos := [] }

/-- A history carrying one baseline snapshot with an open session. -/
def c4DemoState : EdState :=
  { scene := emptyScene,
    hist := { editing := true, undoBlock := false,
              undoStack := [Py.pstr "other"], redoStack := [Py.pstr "r"], parentDirty := false } }

/-- A state from which both undo and redo perform a restoration. -/
def c10DemoState : EdState :=
  { scene := emptyScene,
    hist := { editing := false, undoBlock := false,
              undoStack := [makeSnapshot emptyScene, makeSnapshot emptyScene],
              redoStack := [makeSnapshot emptyScene], parentDirty := false } }

/-- A circle with a correctly attached leader line: anchor `(0,0)`, centre
`(100,0)`, radius 18, scale 1, line ending on the outline at `(82,0)`. -/
def c1Demo : Mark :=
  { shape := .circle 18, pos := ⟨100, 0⟩, anchor := some ⟨0, 0⟩,
    line := some (⟨0, 0⟩, ⟨82, 0⟩) }

/-- A scene holding one square mark exactly as double-click creation leaves
it: an internal id but no `defect_info` attribute. -/
def c2Demo : Scene :=
  { bgPath := "bg",
    marks := [{ shape := .square 36, pos := ⟨1, 2⟩, internal_id := some (.pstr "u") }],
    memos := [] }

/-- A scene holding one square mark with a persisted leader line — a record
the spec's data model allows for every mark type. -/
def c2DemoLine : Scene :=
  { bgPath := "bg",
    marks := [{ shape := .square 36, pos := ⟨1, 2⟩, internal_id := some (.pstr "u"),
                defect_info := some (.pdict []), line := some (⟨0, 0⟩, ⟨1, 2⟩) }],
    memos := [] }

/-- A canonical circle mark (the shape a fully initialised editor circle
has), used to instantiate the round-trip theorem. -/
def c2WitMark : Mark :=
  { shape := .circle 18, pos := ⟨1, 2⟩, scaleV := 1, rotation := 0,
    internal_id := some (.pstr "u"), display_id := some (.pint 1),
    defect_info := some defaultDefectInfo }

/-- A scene with one canonical circle and one memo stroke. -/
def c2WitScene : Scene :=
  { bgPath := "bg", marks := [c2WitMark], memos := [.line ⟨0, 0⟩ ⟨3, 4⟩] }

/-- A hit region covering the whole scene. -/
def regAll : Pt → Bool := fun _ => true

/-- An empty hit region. -/
def regNone : Pt → Bool := fun _ => false

/-- A memo stroke item covering the probe point (stacked topmost). -/
def c5MemoItem : SItem := { kind := .memoLineItem ⟨0, 0⟩ ⟨9, 9⟩, region := regAll }

/-- A circle mark item covering the probe point. -/
def c5MarkItem : SItem :=
  { kind := .markTop { shape := .circle 18, pos := ⟨5, 5⟩, internal_id := some (.pstr "u0") },
    region := regAll }

/-- A controller state with the rect tool armed over a scene where a memo
stroke covers a circle mark. -/
def c5State : CState :=
  { items := [c5MemoItem, c5MarkItem], bgPath := "bg", bgLoaded := true, tool := "rect",
    editMode := .select, dragMode := .dnone, creating := none, dragIdx := none,
    pressPos := none, pressing := false, pendingPressPos := none,
    hist := { editing := false, undoBlock := false, undoStack := [], redoStack := [],
              parentDirty := false },
    anchorVisible := false, anchorTargetIdx := none, anchorRadiusScene := 5,
    timerPending := false, nextDefectIndex := 1 }

/-- The same state with the mark directly exposed (topmost at the point). -/
def c5StateTop : CState :=
  { c5State with items := [c5MarkItem] }

/-- A concrete scene for the renumbering witness: two circles with ids 7 and
3 around a square. -/
def c3Demo : List Mark :=
  [{ shape := .circle 18, pos := ⟨0, 0⟩, display_id := some (.pint 7) },
   { shape := .square 36, pos := ⟨5, 5⟩ },
   { shape := .circle 18, pos := ⟨9, 9⟩, display_id := some (.pint 3) }]

/-- A malformed item record: known type tag, non-numeric `x` field. -/
def c8BadRec : Py := .pdict [("type", .pstr "CircleMark"), ("x", .pstr "oops")]

/-- A well-formed minimal item record. -/
def c8GoodRec : Py := .pdict [("type", .pstr "SquareMark")]

/-- A concrete oldest-format part record (no `subparts` key). -/
def c9DemoPart : PartD :=
  { nameKey := some "부재", imagePathKey := some "a.png",
    defectsKey := some [("d1", Py.pstr "rec")] }

/-- The snapshot of the empty demo scene, sitting on the undo stack while a
creation gesture is in progress. -/
def c6Snap : Py := makeSnapshot { bgPath := "bg", marks := [], memos := [] }

/-- An open edit session whose undo-stack top is the current scene. -/
def c6Hist : Hist :=
  { editing := true, undoBlock := false, undoStack := [c6Snap], redoStack := [],
    parentDirty := false }

/-- A mid-gesture state drawing a degenerate memo line. -/
def c6StLine : CState :=
  { items := [], bgPath := "bg", bgLoaded := true, tool := "memo_line",
    editMode := .select, dragMode := .create, creating := some (.cMemoLine ⟨0, 0⟩ ⟨0, 0⟩),
    dragIdx := none, pressPos := some ⟨0, 0⟩, pressing := false, pendingPressPos := none,
    hist := c6Hist, anchorVisible := false, anchorTargetIdx := none, anchorRadiusScene := 5,
    timerPending := false, nextDefectIndex := 1 }

/-- A mid-gesture state drawing a degenerate memo free path. -/
def c6StFree : CState :=
  { c6StLine with tool := "memo_free", creating := some (.cMemoFree ⟨0, 0⟩ []) }

/-- A mid-gesture state drag-creating a circle without moving the pointer. -/
def c6StCircle : CState :=
  { c6StLine with tool := "circle", creating := some (.cCircle { shape := .circle 18, pos := ⟨1, 1⟩ }), pressPos := some ⟨1, 1⟩ }

/-! ### Helper lemmas -/

/-- `Except` bind on a success reduces. -/
theorem exceptBind_ok {α β : Type} (x : α) (f : α → Except Unit β) :
    (Except.ok x >>= f) = f x := rfl

/-- `Except` bind with a pure continuation is the identity. -/
theorem exceptBind_id {α : Type} (x : Except Unit α) :
    (x >>= fun a => Except.ok a) = x := by cases x <;> rfl

/-- The clamp always lands in `[MIN_SCALE, MAX_SCALE]`. -/
theorem clampCircleScale_mem (s : ℚ) :
    circleMinScale ≤ clampCircleScale s ∧ clampCircleScale s ≤ circleMaxScale := by
  have hmm : circleMinScale ≤ circleMaxScale := by norm_num [circleMinScale, circleMaxScale]
  unfold clampCircleScale
  split_ifs with h1 h2
  · exact ⟨le_refl _, hmm⟩
  · exact ⟨hmm, le_refl _⟩
  · exact ⟨le_of_not_lt h1, le_of_not_lt h2⟩

/-- The clamp keeps an in-range value unchanged. -/
theorem clampCircleScale_eq_self (s : ℚ) (h1 : circleMinScale ≤ s) (h2 : s ≤ circleMaxScale) :
    clampCircleScale s = s := by
  unfold clampCircleScale
  rw [if_neg (not_lt.2 h1), if_neg (not_lt.2 h2)]

/-- A scale step does not change the shape. -/
theorem applyScale_shape (m : Mark) (s : ℚ) : (applyScale m s).shape = m.shape := by
  unfold applyScale
  split <;> rfl

/-- A scale step does not change the anchor. -/
theorem applyScale_anchor (m : Mark) (s : ℚ) : (applyScale m s).anchor = m.anchor := by
  unfold applyScale
  split <;> rfl

/-- A scale step does not change the attached line. -/
theorem applyScale_line (m : Mark) (s : ℚ) : (applyScale m s).line = m.line := by
  unfold applyScale
  split <;> rfl

/-- A scale step on a circle clamps. -/
theorem applyScale_circle (m : Mark) (r s : ℚ) (hs : m.shape = .circle r) :
    (applyScale m s).scaleV = clampCircleScale s := by
  unfold applyScale
  rw [hs]

/-- A nonempty sequence of circle scale steps keeps the scale in range,
whatever the starting value. -/
theorem scale_steps_mem (ray : RayFn) :
    ∀ (fs : List ℚ) (m : Mark) (r : ℚ), m.shape = .circle r → fs ≠ [] →
      circleMinScale ≤ (applyMarkOps ray m (fs.map MarkOp.scaleBy)).scaleV ∧
      (applyMarkOps ray m (fs.map MarkOp.scaleBy)).scaleV ≤ circleMaxScale
  | [], _, _, _, hne => absurd rfl hne
  | f :: fs, m, r, hs, _ => by
      have hstep : applyMarkOps ray m ((f :: fs).map MarkOp.scaleBy)
          = applyMarkOps ray (applyScale m (m.scaleV * f)) (fs.map MarkOp.scaleBy) := by
        simp [applyMarkOps, applyMarkOp]
      rw [hstep]
      rcases fs with _ | ⟨g, gs⟩
      · simpa [applyMarkOps, applyScale_circle m r _ hs] using clampCircleScale_mem (m.scaleV * f)
      · exact scale_steps_mem ray (g :: gs) (applyScale m (m.scaleV * f)) r
          ((applyScale_shape m _).trans hs) (by simp)

/-- `isIntCircle` is exactly definedness of the sort key. -/
theorem isIntCircle_eq_isSome (m : Mark) : isIntCircle m = (circleKeyOf m).isSome := by
  unfold isIntCircle circleKeyOf
  cases m.shape <;> cases m.display_id <;>
    first
      | rfl
      | (rename_i v; cases v <;> rfl)

/-- A mark that is not a circle has no sort key. -/
theorem circleKeyOf_eq_none_of_not_circle (m : Mark) (h : isCircleMark m = false) :
    circleKeyOf m = none := by
  unfold isCircleMark at h
  unfold circleKeyOf
  cases hs : m.shape <;> rw [hs] at h <;> first | rfl | exact absurd h (by simp)

/-- A mark with a sort key is circle-shaped. -/
theorem shape_circle_of_circleKeyOf (m : Mark) (k : Int) (hk : circleKeyOf m = some k) :
    ∃ r : ℚ, m.shape = MarkShape.circle r := by
  unfold circleKeyOf at hk
  cases hs : m.shape <;> rw [hs] at hk
  case circle r => exact ⟨r, rfl⟩
  all_goals simp at hk

/-- Position-tagged lists are duplicate-free. -/
theorem enum_nodup {α : Type} (l : List α) : l.enum.Nodup := by
  have h : (l.enum.map Prod.fst).Nodup := by
    rw [List.enum_map_fst]
    exact List.nodup_range _
  exact List.Nodup.of_map Prod.fst h

/-- The stable sort permutes the tagged circle entries. -/
theorem sortedEntries_perm (keys : List Int) : (sortedEntries keys).Perm keys.enum :=
  List.perm_insertionSort _ _

/-- The sorted entries are duplicate-free. -/
theorem sortedEntries_nodup (keys : List Int) : (sortedEntries keys).Nodup :=
  ((sortedEntries_perm keys).nodup_iff).2 (enum_nodup keys)

/-- The sorted entries are sorted by key. -/
theorem sortedEntries_sorted (keys : List Int) :
    List.Sorted (fun a b : Nat × Int => a.2 ≤ b.2) (sortedEntries keys) := by
  letI : IsTotal (Nat × Int) (fun a b => a.2 ≤ b.2) := ⟨fun a b => le_total a.2 b.2⟩
  letI : IsTrans (Nat × Int) (fun a b => a.2 ≤ b.2) := ⟨fun a b c hab hbc => le_trans hab hbc⟩
  exact List.sorted_insertionSort _ _

/-- An entry present in a list is found within bounds. -/
theorem posIn_lt_length : ∀ (l : List (Nat × Int)) (e : Nat × Int), e ∈ l →
    posIn e l < l.length := by
  intro l e
  induction l with
  | nil => intro h; cases h
  | cons x rest ih =>
      intro h
      by_cases hx : x = e
      · simp [posIn, hx]
      · have hmem : e ∈ rest := by
          rcases List.mem_cons.1 h with h1 | h1
          · exact absurd h1.symm hx
          · exact h1
        have := ih hmem
        simp only [posIn, if_neg hx, List.length_cons]
        omega

/-- The found position holds the entry searched for. -/
theorem getD_posIn : ∀ (l : List (Nat × Int)) (e : Nat × Int), e ∈ l →
    l.getD (posIn e l) (0, 0) = e := by
  intro l e
  induction l with
  | nil => intro h; cases h
  | cons x rest ih =>
      intro h
      by_cases hx : x = e
      · simp [posIn, hx]
      · have hmem : e ∈ rest := by
          rcases List.mem_cons.1 h with h1 | h1
          · exact absurd h1.symm hx
          · exact h1
        simp only [posIn, if_neg hx, List.getD_cons_succ]
        exact ih hmem

/-- In a duplicate-free list, searching for the `i`-th entry finds `i`. -/
theorem posIn_self_getD : ∀ (l : List (Nat × Int)), l.Nodup →
    ∀ (i : Nat), i < l.length → posIn (l.getD i (0, 0)) l = i := by
  intro l
  induction l with
  | nil => intro _ i hi; simp at hi
  | cons x rest ih =>
      intro hnd i hi
      cases i with
      | zero => simp [posIn]
      | succ n =>
          have hn : n < rest.length := by simpa using hi
          have hx : x ∉ rest := (List.nodup_cons.1 hnd).1
          have hne : x ≠ rest.getD n (0, 0) := by
            intro heq
            apply hx
            rw [heq, List.getD_eq_getElem _ _ hn]
            exact List.getElem_mem hn
          have ih2 := ih (List.nodup_cons.1 hnd).2 n hn
          simp only [List.getD_cons_succ, posIn, if_neg hne, ih2]

/-- `newIds` has one entry per key. -/
theorem newIds_length (keys : List Int) : (newIds keys).length = keys.length := by
  simp [newIds, List.enum_length]

/-- The new id of the `p`-th circle, via its position in the sorted order. -/
theorem newIds_getElem (keys : List Int) (p : Nat) (hp : p < keys.length) :
    (newIds keys).getD p 0 = posIn (p, keys[p]) (sortedEntries keys) + 1 := by
  have hp2 : p < (newIds keys).length := by rw [newIds_length]; exact hp
  rw [List.getD_eq_getElem _ _ hp2]
  unfold newIds
  rw [List.getElem_map, List.getElem_enum]

/-- The new ids are a permutation of `1..N`. -/
theorem newIds_perm (keys : List Int) : (newIds keys).Perm (List.range' 1 keys.length) := by
  have hlenS : (sortedEntries keys).length = keys.length := by
    rw [(sortedEntries_perm keys).length_eq, List.enum_length]
  have hmapS : (sortedEntries keys).map
      (fun e => posIn e (sortedEntries keys) + 1) = List.range' 1 keys.length := by
    apply List.ext_getElem
    · simp [hlenS, List.length_range']
    · intro i h1 h2
      have hiS : i < (sortedEntries keys).length := by simpa using h1
      rw [List.getElem_map]
      rw [← List.getD_eq_getElem (sortedEntries keys) (0, 0) hiS,
        posIn_self_getD _ (sortedEntries_nodup keys) i hiS, List.getElem_range']
      omega
  have hperm : (newIds keys).Perm ((sortedEntries keys).map
      (fun e => posIn e (sortedEntries keys) + 1)) :=
    List.Perm.map _ (sortedEntries_perm keys).symm
  rw [hmapS] at hperm
  exact hperm

/-- Strictly ascending keys get strictly ascending new ids. -/
theorem newIds_mono (keys : List Int) (p q : Nat) (hp : p < keys.length) (hq : q < keys.length)
    (hlt : keys[p] < keys[q]) :
    (newIds keys).getD p 0 < (newIds keys).getD q 0 := by
  rw [newIds_getElem keys p hp, newIds_getElem keys q hq]
  have hmem1 : (p, keys[p]) ∈ sortedEntries keys := by
    apply ((sortedEntries_perm keys).mem_iff).2
    have hpe : p < keys.enum.length := by simpa [List.enum_length] using hp
    have h : keys.enum[p] = (p, keys[p]) := List.getElem_enum _ _ _
    rw [← h]
    exact List.getElem_mem hpe
  have hmem2 : (q, keys[q]) ∈ sortedEntries keys := by
    apply ((sortedEntries_perm keys).mem_iff).2
    have hqe : q < keys.enum.length := by simpa [List.enum_length] using hq
    have h : keys.enum[q] = (q, keys[q]) := List.getElem_enum _ _ _
    rw [← h]
    exact List.getElem_mem hqe
  have hi1 : posIn (p, keys[p]) (sortedEntries keys) < (sortedEntries keys).length :=
    posIn_lt_length _ _ hmem1
  have hi2 : posIn (q, keys[q]) (sortedEntries keys) < (sortedEntries keys).length :=
    posIn_lt_length _ _ hmem2
  have hS1 : (sortedEntries keys).getD (posIn (p, keys[p]) (sortedEntries keys)) (0, 0)
      = (p, keys[p]) := getD_posIn _ _ hmem1
  have hS2 : (sortedEntries keys).getD (posIn (q, keys[q]) (sortedEntries keys)) (0, 0)
      = (q, keys[q]) := getD_posIn _ _ hmem2
  rcases lt_trichotomy (posIn (p, keys[p]) (sortedEntries keys))
      (posIn (q, keys[q]) (sortedEntries keys)) with h | h | h
  · omega
  · exfalso
    rw [h] at hS1
    have heq : (p, keys[p]) = (q, keys[q]) := hS1.symm.trans hS2
    have := congrArg Prod.snd heq
    simp at this
    omega
  · exfalso
    have hrel := (sortedEntries_sorted keys).rel_get_of_lt
      (a := ⟨posIn (q, keys[q]) (sortedEntries keys), hi2⟩)
      (b := ⟨posIn (p, keys[p]) (sortedEntries keys), hi1⟩) (by exact h)
    rw [List.get_eq_getElem, List.get_eq_getElem] at hrel
    rw [← List.getD_eq_getElem (sortedEntries keys) (0, 0) hi1,
      ← List.getD_eq_getElem (sortedEntries keys) (0, 0) hi2] at hrel
    rw [hS1, hS2] at hrel
    simp at hrel
    omega

/-- `set_circle_id` turns any circle into an int-keyed circle with that id. -/
theorem circleKeyOf_setCircleId (m : Mark) (r : ℚ) (hs : m.shape = .circle r) (n : Nat) :
    circleKeyOf (setCircleId m n) = some (n : Int) := by
  unfold circleKeyOf setCircleId
  simp [hs]

/-- Distributing one id per renumberable circle rewrites the key list. -/
theorem circleKeys_assignIds : ∀ (marks : List Mark) (ids : List Nat),
    ids.length = (circleKeys marks).length →
    circleKeys (assignIds marks ids) = ids.map (fun n : Nat => (n : Int)) := by
  intro marks
  induction marks with
  | nil =>
      intro ids h
      have hids : ids = [] := by
        have h0 : ids.length = 0 := by simpa [circleKeys] using h
        exact List.length_eq_zero.1 h0
      subst hids
      rfl
  | cons m ms ih =>
      intro ids h
      by_cases hic : isIntCircle m = true
      · have hsome : (circleKeyOf m).isSome = true := by rw [← isIntCircle_eq_isSome]; exact hic
        obtain ⟨k, hk⟩ := Option.isSome_iff_exists.1 hsome
        have hcons : circleKeys (m :: ms) = k :: circleKeys ms := by
          simp [circleKeys, List.filterMap_cons, hk]
        rw [hcons] at h
        rcases ids with _ | ⟨i, rest⟩
        · simp at h
        · have hlen : rest.length = (circleKeys ms).length := by simpa using h
          have hstep : assignIds (m :: ms) (i :: rest) = setCircleId m i :: assignIds ms rest := by
            simp [assignIds, hic]
          obtain ⟨r, hr⟩ := shape_circle_of_circleKeyOf m k hk
          have hknew : circleKeyOf (setCircleId m i) = some (i : Int) :=
            circleKeyOf_setCircleId m r hr i
          rw [hstep]
          simp [circleKeys, List.filterMap_cons, hknew]
          have := ih rest hlen
          simpa [circleKeys] using this
      · have hfalse : isIntCircle m = false := by simpa using hic
        have hnone : circleKeyOf m = none := by
          have h2 := isIntCircle_eq_isSome m
          rw [hfalse] at h2
          exact Option.not_isSome_iff_eq_none.1 (by rw [← h2]; simp)
        have hcons : circleKeys (m :: ms) = circleKeys ms := by
          simp [circleKeys, List.filterMap_cons, hnone]
        rw [hcons] at h
        have hstep : assignIds (m :: ms) ids = m :: assignIds ms ids := by
          cases ids <;> simp [assignIds, hfalse]
        rw [hstep]
        have hres := ih ids h
        simpa [circleKeys, List.filterMap_cons, hnone] using hres

/-- When every circle is int-keyed, the key list counts the circles. -/
theorem circleKeys_length_of_int : ∀ (marks : List Mark),
    (∀ m ∈ marks, isCircleMark m = true → isIntCircle m = true) →
    (circleKeys marks).length = circleCount marks := by
  intro marks
  induction marks with
  | nil => intro _; rfl
  | cons m ms ih =>
      intro h
      have hms := ih (fun x hx => h x (List.mem_cons_of_mem m hx))
      by_cases hc : isCircleMark m = true
      · have hic := h m (List.mem_cons_self _ _) hc
        have hsome : (circleKeyOf m).isSome = true := by rw [← isIntCircle_eq_isSome]; exact hic
        obtain ⟨k, hk⟩ := Option.isSome_iff_exists.1 hsome
        simp [circleKeys, List.filterMap_cons, hk, circleCount, List.filter_cons, hc]
        simpa [circleKeys, circleCount] using hms
      · have hcf : isCircleMark m = false := by simpa using hc
        have hnone : circleKeyOf m = none := circleKeyOf_eq_none_of_not_circle m hcf
        simp [circleKeys, List.filterMap_cons, hnone, circleCount, List.filter_cons, hcf]
        simpa [circleKeys, circleCount] using hms

/-- Mutating the mark at one index preserves the number of marks. -/
theorem sceneMarks_setMarkAt : ∀ (items : List SItem) (i : Nat) (f : Mark → Mark),
    (sceneMarks (setMarkAt items i f)).length = (sceneMarks items).length := by
  intro items
  induction items with
  | nil => intro i f; cases i <;> rfl
  | cons it rest ih =>
      intro i f
      cases i with
      | zero =>
          cases hk : it.kind <;>
            simp [setMarkAt, sceneMarks, List.filterMap_cons, hk]
      | succ n =>
          have h := ih n f
          simp only [sceneMarks] at h
          cases hk : it.kind <;>
            simp [setMarkAt, sceneMarks, List.filterMap_cons, hk, h]

/-- A location over any serializable mark (through any item in the stack)
makes `_find_shape_at` find one. -/
theorem findShapeAt_ne_none (items : List SItem) (p : Pt)
    (h : ∃ it ∈ itemsAt items p, chainHasToDict it.kind = true) :
    findShapeAt items p ≠ none := by
  obtain ⟨it, hmem, hchain⟩ := h
  have hmap : (List.filter (fun e : Nat × SItem => e.2.region p) items.enum).map Prod.snd
      = itemsAt items p := by
    unfold itemsAt
    conv_rhs => rw [← List.enum_map_snd items]
    rw [List.filter_map]
    rfl
  have hmem2 : it ∈ (List.filter (fun e : Nat × SItem => e.2.region p) items.enum).map Prod.snd := by
    rw [hmap]; exact hmem
  obtain ⟨e, he, hesnd⟩ := List.mem_map.1 hmem2
  intro hnone
  unfold findShapeAt at hnone
  rw [List.findSome?_eq_none_iff] at hnone
  have hfe := hnone e he
  rw [← hesnd] at hchain
  cases hke : e.2.kind <;> rw [hke] at hfe hchain <;> simp [chainHasToDict] at hfe hchain

/-- `_begin_drag_create` does nothing when the press was already released. -/
theorem beginDragCreate_of_not_pressing (st : CState) (hp : st.pressing = false) :
    beginDragCreate st = st := by
  unfold beginDragCreate
  split_ifs <;> simp_all

/-- A mouse move with no in-progress creation keeps the register empty, the
drag mode, the press flag and the number of marks. -/
theorem onMouseMove_preserves (ray : RayFn) (st : CState) (q : Pt)
    (hc : st.creating = none) :
    (onMouseMove ray st q).creating = none ∧
    (onMouseMove ray st q).dragMode = st.dragMode ∧
    (sceneMarks (onMouseMove ray st q).items).length = (sceneMarks st.items).length ∧
    (onMouseMove ray st q).pressing = st.pressing := by
  unfold onMouseMove
  cases hdm : st.dragMode
  · simp [hc, hdm]
  · simp [hc, hdm]
  · cases hdi : st.dragIdx <;> simp [hc, hdm, hdi, sceneMarks_setMarkAt]
  · cases hdi : st.dragIdx <;> simp [hc, hdm, hdi, sceneMarks_setMarkAt]

/-- A release with no in-progress creation and no CREATE drag adds no mark
and leaves the register empty. -/
theorem release_no_create (ray : RayFn) (uuid : String) (reg : Pt → Bool)
    (st : CState) (q : Pt) (hc : st.creating = none) (hd : st.dragMode ≠ DMode.create) :
    (sceneMarks (onMouseRelease ray uuid reg st q).items).length
      = (sceneMarks st.items).length ∧
    (onMouseRelease ray uuid reg st q).creating = none := by
  have h1 : memoLineTooShort st.creating = false := by rw [hc]; rfl
  have h2 : memoFreeTooSmall st.creating = false := by rw [hc]; rfl
  unfold onMouseRelease
  rw [h1, h2]
  cases hdm : st.dragMode
  case dnone => simp [hdm, hc]
  case create => exact absurd hdm hd
  case move =>
    cases hdi : st.dragIdx <;> simp [hdm, hdi, hc, sceneMarks_setMarkAt]
  case moveAnchor =>
    cases hdi : st.dragIdx <;> simp [hdm, hdi, hc, sceneMarks_setMarkAt]

/-- A press over a serializable mark never arms creation: the scene, the
creation register, and the press flag are untouched, and the drag mode is
not CREATE (it becomes MOVE, MOVE_ANCHOR, or stays). -/
theorem press_over_mark (st : CState) (p : Pt)
    (hover : ∃ it ∈ itemsAt st.items p, chainHasToDict it.kind = true) :
    (onMousePress st p).1.items = st.items ∧
    (onMousePress st p).1.creating = st.creating ∧
    ((onMousePress st p).1.dragMode = st.dragMode ∨
      (onMousePress st p).1.dragMode = DMode.move ∨
      (onMousePress st p).1.dragMode = DMode.moveAnchor) ∧
    (onMousePress st p).1.pressing = st.pressing := by
  have hcore : (pressCore st p).1.items = st.items ∧
      (pressCore st p).1.creating = st.creating ∧
      ((pressCore st p).1.dragMode = st.dragMode ∨
        (pressCore st p).1.dragMode = DMode.move ∨
        (pressCore st p).1.dragMode = DMode.moveAnchor) ∧
      (pressCore st p).1.pressing = st.pressing := by
    unfold pressCore
    rcases hf : findShapeAt st.items p with _ | i
    · exact absurd hf (findShapeAt_ne_none st.items p hover)
    · by_cases he : st.editMode = EMode.select
      · simp [he]
      · simp [he]
  unfold onMousePress
  by_cases hbg : st.bgLoaded
  · rw [if_neg (by simp [hbg])]
    rcases hgrab : anchorGrab st p with _ | i
    · simp only [hgrab]
      rcases hraw : itemAt st.items p with _ | it
      · exact hcore
      · by_cases hm : isMemoKind it.kind
        · simp [hm]
        · simp only [hm, Bool.false_eq_true, if_false]
          exact hcore
    · simp [hgrab]
  · rw [if_pos (by simp [hbg])]
    exact ⟨rfl, rfl, Or.inl rfl, rfl⟩

/-- A whole sequence of mouse moves with an empty creation register keeps
it empty, keeps the drag mode and keeps the number of marks. -/
theorem foldl_moves_preserves (ray : RayFn) : ∀ (moves : List Pt) (s : CState),
    s.creating = none →
    (moves.foldl (onMouseMove ray) s).creating = none ∧
    (moves.foldl (onMouseMove ray) s).dragMode = s.dragMode ∧
    (sceneMarks (moves.foldl (onMouseMove ray) s).items).length
      = (sceneMarks s.items).length := by
  intro moves
  induction moves with
  | nil => intro s hc; exact ⟨hc, rfl, rfl⟩
  | cons q rest ih =>
      intro s hc
      obtain ⟨h1, h2, h3, _⟩ := onMouseMove_preserves ray s q hc
      obtain ⟨g1, g2, g3⟩ := ih (onMouseMove ray s q) h1
      refine ⟨g1, ?_, ?_⟩
      · simp only [List.foldl_cons]; rw [g2, h2]
      · simp only [List.foldl_cons]; rw [g3, h3]

/-- When the stack top already equals the snapshot being committed,
`_end_edit` leaves both stacks untouched. -/
theorem histEndEdit_quiet (snap : Py) (h : Hist)
    (hq : h.undoStack.getLast? = some snap) :
    (histEndEdit snap h).undoStack = h.undoStack ∧
    (histEndEdit snap h).redoStack = h.redoStack := by
  unfold histEndEdit
  by_cases hb : h.undoBlock
  · simp [hb]
  · by_cases he : h.editing
    · simp [hb, he, hq]
    · simp [hb, he]

/-- `setdefault` on a present key does nothing. -/
theorem setdefaultKV_of_isSome (kvs : KVs) (k : String) (v : Py)
    (h : (lookupKV kvs k).isSome = true) : setdefaultKV kvs k v = kvs := by
  simp [setdefaultKV, h]

/-- The `setdefault` chain does nothing on a complete defect record. -/
theorem installDefectDefaults_complete (kvs : KVs)
    (h1 : (lookupKV kvs "member").isSome = true)
    (h2 : (lookupKV kvs "location").isSome = true)
    (h3 : (lookupKV kvs "defect_type").isSome = true)
    (h4 : (lookupKV kvs "size").isSome = true)
    (h5 : (lookupKV kvs "progress").isSome = true)
    (h6 : (lookupKV kvs "remark").isSome = true) :
    installDefectDefaults kvs = kvs := by
  unfold installDefectDefaults
  simp only [setdefaultKV_of_isSome _ _ _ h1, setdefaultKV_of_isSome _ _ _ h2,
    setdefaultKV_of_isSome _ _ _ h3, setdefaultKV_of_isSome _ _ _ h4,
    setdefaultKV_of_isSome _ _ _ h5, setdefaultKV_of_isSome _ _ _ h6]

/-- Redrawing the leader line touches none of the fields C2 compares. -/
theorem markTuple_updateAttachedLine (ray : RayFn) (m : Mark) :
    markTuple (updateAttachedLine ray m) = markTuple m := by
  unfold updateAttachedLine
  cases ha : m.anchor <;> cases hl : m.line <;> rfl

/-- Redrawing the leader line keeps the internal id. -/
theorem updateAttachedLine_internal_id (ray : RayFn) (m : Mark) :
    (updateAttachedLine ray m).internal_id = m.internal_id := by
  unfold updateAttachedLine
  cases ha : m.anchor <;> cases hl : m.line <;> rfl

/-- Redrawing the leader line keeps the position. -/
theorem updateAttachedLine_pos (ray : RayFn) (m : Mark) :
    (updateAttachedLine ray m).pos = m.pos := by
  unfold updateAttachedLine
  cases ha : m.anchor <;> cases hl : m.line <;> rfl

/-- Redrawing the leader line keeps the scale. -/
theorem updateAttachedLine_scaleV (ray : RayFn) (m : Mark) :
    (updateAttachedLine ray m).scaleV = m.scaleV := by
  unfold updateAttachedLine
  cases ha : m.anchor <;> cases hl : m.line <;> rfl

/-- Redrawing the leader line keeps the rotation. -/
theorem updateAttachedLine_rotation (ray : RayFn) (m : Mark) :
    (updateAttachedLine ray m).rotation = m.rotation := by
  unfold updateAttachedLine
  cases ha : m.anchor <;> cases hl : m.line <;> rfl

/-- Redrawing the leader line keeps the defect info. -/
theorem updateAttachedLine_defect_info (ray : RayFn) (m : Mark) :
    (updateAttachedLine ray m).defect_info = m.defect_info := by
  unfold updateAttachedLine
  cases ha : m.anchor <;> cases hl : m.line <;> rfl

/-- Point records written by the snapshot parse back to themselves. -/
theorem parsePt_roundtrip (p : Pt) :
    parsePt (.plist [.pfloat p.x, .pfloat p.y]) = .ok p := rfl

/-- Point-record lists written by the snapshot parse back to themselves. -/
theorem parsePts_roundtrip (ps : List Pt) :
    parsePts (ps.map (fun p => Py.plist [.pfloat p.x, .pfloat p.y])) = .ok ps := by
  induction ps with
  | nil => rfl
  | cons p ps ih => simp [parsePts, parsePt_roundtrip, ih, Bind.bind, Except.bind]

/-- A memo stroke round-trips exactly through its snapshot record. -/
theorem restoreMemo_roundtrip (mm : Memo) :
    restoreMemo (memoToDict mm) = .ok (some mm) := by
  cases mm with
  | line p1 p2 =>
      simp [restoreMemo, memoToDict, lookupKV, parsePt_roundtrip, Bind.bind, Except.bind]
  | free s rest =>
      simp [restoreMemo, memoToDict, lookupKV, parsePt_roundtrip, parsePts_roundtrip,
        Bind.bind, Except.bind]

/-- Memo lists round-trip exactly. -/
theorem restoreMemos_roundtrip (ms : List Memo) :
    restoreMemos (ms.map memoToDict) = .ok ms := by
  induction ms with
  | nil => rfl
  | cons mm ms ih =>
      simp [restoreMemos, restoreMemo_roundtrip, ih, Bind.bind, Except.bind]

/-- A canonical mark restores from its own record to a mark with the same
internal id, position, scale, rotation and defect info. -/
theorem restoreItem_roundtrip (ray : RayFn) (m : Mark) (hc : canonicalMark m) :
    ∃ m', restoreItem ray (markToDict m) = Except.ok (some m') ∧
      markTuple m' = markTuple m := by
  cases hsh : m.shape with
  | circle r =>
      simp only [canonicalMark, hsh] at hc
      obtain ⟨⟨v, hiid⟩, ⟨n, hdid⟩, ⟨dk, hdinfo, ⟨mem, hmem⟩, hl2, hl3, hl4, hl5, hl6⟩,
        hs1, hs2⟩ := hc
      have hdkne : dk.isEmpty = false := by
        cases dk with
        | nil => simp [lookupKV] at hmem
        | cons a l => rfl
      have hinst : installDefectDefaults dk = dk :=
        installDefectDefaults_complete dk (by rw [hmem]; rfl) hl2 hl3 hl4 hl5 hl6
      have hcl : clampCircleScale m.scaleV = m.scaleV :=
        clampCircleScale_eq_self m.scaleV hs1 hs2
      rcases hln : m.line with _ | ⟨p1, p2⟩ <;>
        simp [restoreItem, markToDict, hsh, hiid, hdid, hdinfo, hln, markTypeName,
          markClassNames, Py.getKey, lookupKV, parseXY, reqNum, asNum, fromDictShape,
          Py.truthy, hdkne, hinst, hcl, hmem, markTuple, updateAttachedLine_internal_id,
          updateAttachedLine_pos, updateAttachedLine_scaleV, updateAttachedLine_rotation,
          updateAttachedLine_defect_info, parsePt, Bind.bind, Except.bind]
  | square s =>
      simp only [canonicalMark, hsh] at hc
      obtain ⟨⟨v, hiid⟩, hdid3, ⟨dv, hdinfo⟩, hln⟩ := hc
      rcases hdid3 with hdid | hdid | ⟨ds, hdid⟩ <;>
        simp [restoreItem, markToDict, hsh, hiid, hdid, hdinfo, hln, markTypeName,
          markClassNames, Py.getKey, lookupKV, parseXY, reqNum, asNum, fromDictShape,
          Py.truthy, markTuple, parsePt, Bind.bind, Except.bind]
  | triangle s =>
      simp only [canonicalMark, hsh] at hc
      obtain ⟨⟨v, hiid⟩, hdid3, ⟨dv, hdinfo⟩, hln⟩ := hc
      rcases hdid3 with hdid | hdid | ⟨ds, hdid⟩ <;>
        simp [restoreItem, markToDict, hsh, hiid, hdid, hdinfo, hln, markTypeName,
          markClassNames, Py.getKey, lookupKV, parseXY, reqNum, asNum, fromDictShape,
          Py.truthy, markTuple, parsePt, Bind.bind, Except.bind]
  | scurve w h =>
      simp only [canonicalMark, hsh] at hc
      obtain ⟨⟨v, hiid⟩, hdid3, ⟨dv, hdinfo⟩, hln⟩ := hc
      rcases hdid3 with hdid | hdid | ⟨ds, hdid⟩ <;>
        simp [restoreItem, markToDict, hsh, hiid, hdid, hdinfo, hln, markTypeName,
          markClassNames, Py.getKey, lookupKV, parseXY, reqNum, asNum, fromDictShape,
          Py.truthy, markTuple, parsePt, Bind.bind, Except.bind]
  | note t =>
      simp only [canonicalMark, hsh] at hc
      obtain ⟨⟨v, hiid⟩, hdid3, ⟨dv, hdinfo⟩, hln⟩ := hc
      rcases hdid3 with hdid | hdid | ⟨ds, hdid⟩ <;>
        simp [restoreItem, markToDict, hsh, hiid, hdid, hdinfo, hln, markTypeName,
          markClassNames, Py.getKey, lookupKV, parseXY, reqNum, asNum, fromDictShape,
          Py.truthy, markTuple, parsePt, Bind.bind, Except.bind]

/-- Lists of canonical marks restore in order with the compared data intact. -/
theorem restoreItems_roundtrip (ray : RayFn) : ∀ (ms : List Mark),
    (∀ m ∈ ms, canonicalMark m) →
    ∃ ms', restoreItems ray (ms.map markToDict) = .ok ms' ∧
      ms'.map markTuple = ms.map markTuple := by
  intro ms
  induction ms with
  | nil => intro _; exact ⟨[], rfl, rfl⟩
  | cons m rest ih =>
      intro hall
      obtain ⟨m', hm', ht⟩ := restoreItem_roundtrip ray m (hall m (List.mem_cons_self _ _))
      obtain ⟨ms', hms', hts⟩ := ih (fun x hx => hall x (List.mem_cons_of_mem _ hx))
      refine ⟨m' :: ms', ?_, ?_⟩
      · simp [restoreItems, hm', hms', Bind.bind, Except.bind]
      · simp [ht, hts]

/-! ### Claim theorems -/

/-- C7: for every CircleMark and every sequence of scale-change attempts
(each multiplying the current scale by a growth factor), each attempt
succeeds with the applied scale saturated into `[0.6, 2.5]`, and the final
scale after any nonempty sequence of steps lies in `[0.6, 2.5]`. -/
theorem c7_scale_clamp (ray : RayFn) (m : Mark) (r : ℚ) (hs : m.shape = MarkShape.circle r)
    (fs : List ℚ) :
    (∀ f : ℚ,
       (applyMarkOp ray m (.scaleBy f)).scaleV = clampCircleScale (m.scaleV * f) ∧
       circleMinScale ≤ (applyMarkOp ray m (.scaleBy f)).scaleV ∧
       (applyMarkOp ray m (.scaleBy f)).scaleV ≤ circleMaxScale) ∧
    (fs ≠ [] →
       circleMinScale ≤ (applyMarkOps ray m (fs.map MarkOp.scaleBy)).scaleV ∧
       (applyMarkOps ray m (fs.map MarkOp.scaleBy)).scaleV ≤ circleMaxScale) := by
  constructor
  · intro f
    have h1 : (applyMarkOp ray m (.scaleBy f)).scaleV = clampCircleScale (m.scaleV * f) := by
      simpa [applyMarkOp] using applyScale_circle m r (m.scaleV * f) hs
    exact ⟨h1, h1 ▸ (clampCircleScale_mem _).1, h1 ▸ (clampCircleScale_mem _).2⟩
  · intro hne
    exact scale_steps_mem ray fs m r hs hne

/-- C7 witness: a heavily overshooting two-step sequence on a fresh circle
ends in range. -/
theorem c7_scale_clamp_witness :
    circleMinScale ≤ (applyMarkOps noRay c7Demo ([100, 100].map MarkOp.scaleBy)).scaleV ∧
    (applyMarkOps noRay c7Demo ([100, 100].map MarkOp.scaleBy)).scaleV ≤ circleMaxScale :=
  (c7_scale_clamp noRay c7Demo 18 rfl [100, 100]).2 (by simp)

/-- C3: in a scene whose CircleMarks all carry int display ids (true of
every scene reachable by circle creations and deletions), after
`_renumber_circle_ids` the display ids of the circles are exactly
`{1, ..., N}` for `N` the number of CircleMarks, and they are assigned in
ascending order of each circle's pre-renumber display id. -/
theorem c3_renumber (marks : List Mark)
    (h : ∀ m ∈ marks, isCircleMark m = true → isIntCircle m = true) :
    (circleKeys (renumberCircleIds marks)).Perm
      ((List.range' 1 (circleCount marks)).map (fun n : Nat => (n : Int))) ∧
    (∀ p q : Nat, p < (circleKeys marks).length → q < (circleKeys marks).length →
      (circleKeys marks).getD p 0 < (circleKeys marks).getD q 0 →
      (circleKeys (renumberCircleIds marks)).getD p 0
        < (circleKeys (renumberCircleIds marks)).getD q 0) := by
  have hlen : (newIds (circleKeys marks)).length = (circleKeys marks).length :=
    newIds_length (circleKeys marks)
  have hre : circleKeys (renumberCircleIds marks)
      = (newIds (circleKeys marks)).map (fun n : Nat => (n : Int)) :=
    circleKeys_assignIds marks (newIds (circleKeys marks)) hlen
  constructor
  · rw [hre, ← circleKeys_length_of_int marks h]
    exact List.Perm.map _ (newIds_perm (circleKeys marks))
  · intro p q hp hq hlt
    rw [hre]
    have hp2 : p < ((newIds (circleKeys marks)).map (fun n : Nat => (n : Int))).length := by
      simpa [hlen] using hp
    have hq2 : q < ((newIds (circleKeys marks)).map (fun n : Nat => (n : Int))).length := by
      simpa [hlen] using hq
    rw [List.getD_eq_getElem _ _ hp2, List.getD_eq_getElem _ _ hq2,
      List.getElem_map, List.getElem_map]
    have hm := newIds_mono (circleKeys marks) p q hp hq
      (by rw [← List.getD_eq_getElem _ (0 : Int) hp, ← List.getD_eq_getElem _ (0 : Int) hq]
          exact hlt)
    rw [List.getD_eq_getElem _ _ (by rw [newIds_length]; exact hp),
      List.getD_eq_getElem _ _ (by rw [newIds_length]; exact hq)] at hm
    exact_mod_cast hm

/-- C3 witness: on the concrete scene with circle ids `7` and `3`, the
renumbered ids are a permutation of `{1, 2}` (with the id-3 circle becoming
1 and the id-7 circle becoming 2). -/
theorem c3_renumber_witness :
    (circleKeys (renumberCircleIds c3Demo)).Perm [1, 2] ∧
    circleKeys (renumberCircleIds c3Demo) = [2, 1] := by
  have h := (c3_renumber c3Demo (by decide)).1
  have he : (List.range' 1 (circleCount c3Demo)).map (fun n : Nat => (n : Int)) = [1, 2] := rfl
  exact ⟨he ▸ h, by decide⟩

/-- C4: `_end_edit` with an open session outside an undo/redo replay pushes
the snapshot iff it differs from the top of the undo stack, any such push
clears the redo stack, an equal-to-top snapshot leaves both stacks alone,
and without an open session (or inside a replay) both stacks are
untouched. -/
theorem c4_end_edit (st : EdState) :
    ((st.hist.editing = true ∧ st.hist.undoBlock = false ∧ st.hist.undoStack ≠ []) →
       ((((endEdit st).hist.undoStack = st.hist.undoStack ++ [makeSnapshot st.scene]) ∧
         (endEdit st).hist.redoStack = []) ↔
        st.hist.undoStack.getLast? ≠ some (makeSnapshot st.scene)) ∧
       (st.hist.undoStack.getLast? = some (makeSnapshot st.scene) →
         (endEdit st).hist.undoStack = st.hist.undoStack ∧
         (endEdit st).hist.redoStack = st.hist.redoStack)) ∧
    ((st.hist.editing = false ∨ st.hist.undoBlock = true) →
       (endEdit st).hist.undoStack = st.hist.undoStack ∧
       (endEdit st).hist.redoStack = st.hist.redoStack) := by
  constructor
  · rintro ⟨hed, hbl, -⟩
    constructor
    · by_cases htop : st.hist.undoStack.getLast? = some (makeSnapshot st.scene)
      · simp only [endEdit, histEndEdit, hed, hbl, htop, if_true, if_neg, Bool.not_true,
          Bool.false_eq_true, if_false]
        constructor
        · rintro ⟨hpush, -⟩
          have := congrArg List.length hpush
          simp at this
        · intro hne
          exact absurd rfl hne
      · simp only [endEdit, histEndEdit, hed, hbl, htop, Bool.not_true, Bool.false_eq_true,
          if_false]
        simp [htop]
    · intro htop
      simp [endEdit, histEndEdit, hed, hbl, htop]
  · intro hoff
    rcases hoff with hed | hbl
    · by_cases hbl : st.hist.undoBlock = true
      · simp [endEdit, histEndEdit, hbl]
      · simp only [Bool.not_eq_true] at hbl
        simp [endEdit, histEndEdit, hed, hbl]
    · simp [endEdit, histEndEdit, hbl]

/-- C4 witness: on a concrete open session whose stack top differs from the
current snapshot, `_end_edit` pushes and clears the redo stack. -/
theorem c4_end_edit_witness :
    (endEdit c4DemoState).hist.undoStack
        = c4DemoState.hist.undoStack ++ [makeSnapshot c4DemoState.scene] ∧
    (endEdit c4DemoState).hist.redoStack = [] := by
  have h := (c4_end_edit c4DemoState).1 ⟨rfl, rfl, by decide⟩
  exact h.1.2 (by decide)

/-- C10: every `undo()` that performs a restoration (stack length at least
2) and every `redo()` that performs one (nonempty redo stack) ends with
`mark_dirty` invoked — the dialog's dirty flag is set unconditionally,
independent of what was restored. -/
theorem c10_undo_redo_dirty (ray : RayFn) (st st1 st2 : EdState) :
    (2 ≤ st.hist.undoStack.length → undo ray st = .ok st1 →
       st1.hist.parentDirty = true) ∧
    (st.hist.redoStack ≠ [] → redo ray st = .ok st2 →
       st2.hist.parentDirty = true) := by
  constructor
  · intro h2 hok
    unfold undo at hok
    rw [if_neg (not_lt.2 h2)] at hok
    rcases hres : restoreSnapshot ray st.scene
        (((st.hist.undoStack.dropLast).getLast?).getD .pnone) with e | sc
    · simp only [hres] at hok
      exact Except.noConfusion hok
    · simp only [hres] at hok
      injection hok with h
      rw [← h]
  · intro hne hok
    unfold redo at hok
    rcases hl : st.hist.redoStack.getLast? with _ | snap
    · exact absurd (List.getLast?_eq_none_iff.1 hl) hne
    · simp only [hl] at hok
      rcases hres : restoreSnapshot ray st.scene snap with e | sc
      · simp only [hres] at hok
        exact Except.noConfusion hok
      · simp only [hres] at hok
        injection hok with h
        rw [← h]

/-- C10 witness: on a concrete state whose restored snapshot equals the
baseline, undo still marks the document dirty. -/
theorem c10_undo_redo_dirty_witness :
    (undo noRay c10DemoState).map (fun s => s.hist.parentDirty) = Except.ok true := by
  have hsome : (undo noRay c10DemoState).toOption.isSome = true := by decide
  rcases hok : undo noRay c10DemoState with e | st1
  · rw [hok] at hsome
    simp [Except.toOption] at hsome
  · have hd := (c10_undo_redo_dirty noRay c10DemoState st1 st1).1 (by decide) hok
    simp [Except.map, hd]

/-- C8 counterexample: a record with a known type tag but a malformed field
(`x` is a string) is not skipped — `_restore_item` raises (a `TypeError`
from `QPointF`), so the restoration aborts and the remaining well-formed
records are never restored, contradicting the claim that malformed records
are dropped silently while the rest completes. -/
theorem c8_counterexample :
    restoreItem noRay c8BadRec = .error () ∧
    restoreItems noRay [c8BadRec, c8GoodRec] = .error () := by
  refine ⟨rfl, rfl⟩

/-- C8 amended: only a record whose type tag is a string unknown to
`MARK_CLASSES` is skipped silently — it is dropped, no item is added for
it, and the restoration of the remaining records proceeds exactly as if
the record were absent.  Malformed field values instead raise and abort
the restore (see the counterexample). -/
theorem c8_amended (ray : RayFn) (pre post : List Py) (kvs : KVs) (ty : String)
    (hk : lookupKV kvs "type" = some (.pstr ty)) (hty : ty ∉ markClassNames) :
    restoreItems ray (pre ++ Py.pdict kvs :: post) = restoreItems ray (pre ++ post) := by
  have hskip : restoreItem ray (Py.pdict kvs) = .ok none := by
    simp [restoreItem, hk, hty]
  induction pre with
  | nil => simp [restoreItems, hskip, exceptBind_ok, exceptBind_id]
  | cons r rs ih => simp [restoreItems, ih]

/-- C8 witness: a record with unknown tag `"Mystery"` restores to exactly
what the list without it restores to. -/
theorem c8_amended_witness :
    restoreItems noRay [Py.pdict [("type", Py.pstr "Mystery")], c8GoodRec]
      = restoreItems noRay [c8GoodRec] :=
  c8_amended noRay [] [c8GoodRec] [("type", Py.pstr "Mystery")] "Mystery" rfl (by decide)

/-- C9: `Project.from_dict` converts every part in order; a part without a
`subparts` key yields exactly one synthetic sub-part carrying the part's
`image_path` and a single `"DEFAULT"` inspection holding the part's defects
mapping unchanged; a sub-part with a direct `defects` key and no
`inspections` key gets `inspections = {"DEFAULT": {"defects": <same
defects>}}`. -/
theorem c9_legacy_migration (newId : String → String) (d : ProjectD) :
    ((projectFromDict newId d).parts = ((d.partsKey).getD []).map (convPart newId)) ∧
    (∀ p : PartD, p.subpartsKey = none →
       (convPart newId p).subparts =
         [{ id := newId "subpart", name := (p.nameKey).getD "",
            image_path := (p.imagePathKey).getD "",
            inspections :=
              [("DEFAULT", Py.pdict [("defects", Py.pdict ((p.defectsKey).getD []))])] }]) ∧
    (∀ (sp : SubPartD) (ds : KVs), sp.defectsKey = some ds → sp.inspectionsKey = none →
       (convSubPart newId sp).inspections =
         [("DEFAULT", Py.pdict [("defects", Py.pdict ds)])]) := by
  refine ⟨rfl, ?_, ?_⟩
  · intro p hsp
    simp [convPart, hsp, normalizeInspections, normalizeInspVal, lookupKV, setKV, dictEntriesOf]
  · intro sp ds hds hin
    simp [convSubPart, hds, hin, normalizeInspections, normalizeInspVal, lookupKV, setKV,
      dictEntriesOf]

/-- C1 counterexample: a circle with an attached leader line in the exact
axis-aligned configuration (anchor `(0,0)`, centre `(100,0)`, radius 18,
scale 1, line correctly ending on the outline at `(82,0)`).  One Ctrl+wheel
scale step (factor 2) changes the outline, but no recomputation fires on a
scale change: the stored second endpoint stays `(82,0)` while the ray
intersection from the anchor toward the current centre now lies at
`(64,0)` — the claimed invariant fails after a scale operation. -/
theorem c1_counterexample :
    (applyMarkOps rayCircleAxis c1Demo [.scaleBy 2]).scaleV = 2 ∧
    (applyMarkOps rayCircleAxis c1Demo [.scaleBy 2]).line = some (⟨0, 0⟩, ⟨82, 0⟩) ∧
    rayCircleAxis (MarkShape.circle 18) 2 0 ⟨100, 0⟩ ⟨0, 0⟩ ⟨100, 0⟩ = some ⟨64, 0⟩ ∧
    (applyMarkOps rayCircleAxis c1Demo [.scaleBy 2]).line ≠
      some ((applyMarkOps rayCircleAxis c1Demo [.scaleBy 2]).anchor.getD ⟨0, 0⟩,
        orPt (rayCircleAxis (applyMarkOps rayCircleAxis c1Demo [.scaleBy 2]).shape
            (applyMarkOps rayCircleAxis c1Demo [.scaleBy 2]).scaleV
            (applyMarkOps rayCircleAxis c1Demo [.scaleBy 2]).rotation
            (applyMarkOps rayCircleAxis c1Demo [.scaleBy 2]).pos
            ((applyMarkOps rayCircleAxis c1Demo [.scaleBy 2]).anchor.getD ⟨0, 0⟩)
            (applyMarkOps rayCircleAxis c1Demo [.scaleBy 2]).pos)
          (applyMarkOps rayCircleAxis c1Demo [.scaleBy 2]).pos) := by
  have hm : applyMarkOps rayCircleAxis c1Demo [.scaleBy 2] = { c1Demo with scaleV := 2 } := by
    have h2 : clampCircleScale (c1Demo.scaleV * 2) = 2 := by
      unfold clampCircleScale c1Demo
      norm_num [circleMinScale, circleMaxScale]
    simp [applyMarkOps, applyMarkOp, applyScale, c1Demo, clampCircleScale] at h2 ⊢
    simp [h2]
  have hray : rayCircleAxis (MarkShape.circle 18) 2 0 ⟨100, 0⟩ ⟨0, 0⟩ ⟨100, 0⟩
      = some ⟨64, 0⟩ := by
    show (if (0 : ℚ) = 0 ∧ (0 : ℚ) < 100 - 18 * 2 then
        some (⟨100 - 18 * 2, 0⟩ : Pt) else none) = some ⟨64, 0⟩
    rw [if_pos (by norm_num)]
    norm_num
  refine ⟨by rw [hm], by rw [hm]; rfl, hray, ?_⟩
  rw [hm]
  simp only [c1Demo, Option.getD_some]
  rw [hray]
  decide

/-- C1 amended: for a mark whose line starts at its anchor, any sequence of
move/scale/rotate operations (no anchor drag) keeps the line's first
endpoint equal to the anchor set at attachment and leaves the anchor
unchanged; the second endpoint equals the intersection-or-centre computed at
the most recent recomputation, which fires on every move (and anchor drag)
but not on scale or rotate — in particular, after any sequence ending in a
move it is the ray intersection from the anchor toward the current centre,
or the centre when there is none; and an anchor drag is exactly the
operation that reassigns the anchor. -/
theorem c1_amended (ray : RayFn) (m : Mark) (a l2 : Pt) (ops : List MarkOp)
    (hAnchor : m.anchor = some a) (hLine : m.line = some (a, l2))
    (hNoDrag : ∀ op ∈ ops, notAnchorDrag op) :
    ((applyMarkOps ray m ops).anchor = some a ∧
     ∃ e : Pt, (applyMarkOps ray m ops).line = some (a, e)) ∧
    (∀ p : Pt,
      (applyMarkOp ray (applyMarkOps ray m ops) (.move p)).line =
        some (a, orPt (ray (applyMarkOps ray m ops).shape
                          (applyMarkOps ray m ops).scaleV
                          (applyMarkOps ray m ops).rotation p a p) p)) ∧
    (∀ p : Pt, (applyMarkOp ray (applyMarkOps ray m ops) (.anchorDrag p)).anchor = some p) := by
  have main : ∀ (ops : List MarkOp) (m : Mark), m.anchor = some a →
      (∃ e : Pt, m.line = some (a, e)) → (∀ op ∈ ops, notAnchorDrag op) →
      (applyMarkOps ray m ops).anchor = some a ∧
      ∃ e : Pt, (applyMarkOps ray m ops).line = some (a, e) := by
    intro ops
    induction ops with
    | nil => intro m h1 h2 _; exact ⟨h1, h2⟩
    | cons op rest ih =>
        intro m h1 h2 hnd
        have hstep : (applyMarkOp ray m op).anchor = some a ∧
            ∃ e : Pt, (applyMarkOp ray m op).line = some (a, e) := by
          obtain ⟨e, he⟩ := h2
          cases op with
          | move p =>
              constructor
              · simp [applyMarkOp, updateAttachedLine, h1, he]
              · refine ⟨orPt (ray m.shape m.scaleV m.rotation p a p) p, ?_⟩
                simp [applyMarkOp, updateAttachedLine, h1, he]
          | scaleBy f =>
              refine ⟨?_, ⟨e, ?_⟩⟩
              · rw [show applyMarkOp ray m (.scaleBy f) = applyScale m (m.scaleV * f) from rfl,
                  applyScale_anchor, h1]
              · rw [show applyMarkOp ray m (.scaleBy f) = applyScale m (m.scaleV * f) from rfl,
                  applyScale_line, he]
          | rotateTo r =>
              exact ⟨by simp [applyMarkOp, h1], ⟨e, by simp [applyMarkOp, he]⟩⟩
          | anchorDrag p =>
              exact ((hnd _ (by simp) : notAnchorDrag (.anchorDrag p))).elim
        have : applyMarkOps ray m (op :: rest) = applyMarkOps ray (applyMarkOp ray m op) rest := by
          simp [applyMarkOps]
        rw [this]
        exact ih _ hstep.1 hstep.2 (fun o ho => hnd o (by simp [ho]))
  have hbase := main ops m hAnchor ⟨l2, hLine⟩ hNoDrag
  refine ⟨hbase, ?_, ?_⟩
  · intro p
    obtain ⟨e, he⟩ := hbase.2
    simp [applyMarkOp, updateAttachedLine, hbase.1, he]
  · intro p
    obtain ⟨e, he⟩ := hbase.2
    simp [applyMarkOp, updateAttachedLine, he]

/-- C1 witness: after a rotation step followed by a move (with a ray
function finding no intersection), the line of the concrete circle runs
from the unchanged anchor to the current centre. -/
theorem c1_amended_witness :
    (applyMarkOp noRay (applyMarkOps noRay c1Demo [.rotateTo 5]) (.move ⟨50, 7⟩)).line
      = some (⟨0, 0⟩, ⟨50, 7⟩) := by
  have h := (c1_amended noRay c1Demo ⟨0, 0⟩ ⟨82, 0⟩ [.rotateTo 5] rfl rfl
      (by intro op hop; simp at hop; rw [hop]; trivial)).2.1 ⟨50, 7⟩
  rw [h]
  decide

/-- C9 witness: a concrete oldest-format part migrates into one synthetic
sub-part with the `"DEFAULT"` inspection holding its defects. -/
theorem c9_legacy_migration_witness :
    (convPart (fun pre => pre ++ "_1") c9DemoPart).subparts =
      [{ id := "subpart_1", name := "부재", image_path := "a.png",
         inspections :=
           [("DEFAULT", Py.pdict [("defects", Py.pdict [("d1", Py.pstr "rec")])])] }] :=
  (c9_legacy_migration (fun pre => pre ++ "_1") {}).2.1 c9DemoPart rfl

/-- C5 counterexample: `_can_create_at` only inspects the topmost item, so
when a memo stroke covers an existing CircleMark the double-click creation
at that very point goes through — the pointer-down location lies over a
serializable mark, yet a new mark is added. -/
theorem c5_counterexample :
    (∃ it ∈ itemsAt c5State.items ⟨5, 5⟩, chainHasToDict it.kind = true) ∧
    (sceneMarks (onDoubleClick "u1" regAll c5State ⟨5, 5⟩).1.items).length
      = (sceneMarks c5State.items).length + 1 := by
  constructor
  · refine ⟨c5MarkItem, ?_, rfl⟩
    have h : itemsAt c5State.items ⟨5, 5⟩ = [c5MemoItem, c5MarkItem] := rfl
    rw [h]
    exact List.mem_cons_of_mem _ (List.mem_cons_self _ _)
  · rfl

/-- C5 amended: the double-click rejection consults only the topmost item
under the pointer — when that item's parent chain reaches a serializable
mark, no item is added; and a whole drag-creation gesture (press, the
press-hold timer, any move sequence, release) started from a quiescent
state over any serializable mark in the stack never adds a mark, because
`_find_shape_at` scans the full stack and turns the press into a MOVE. -/
theorem c5_amended (ray : RayFn) (uuid : String) (reg : Pt → Bool)
    (st : CState) (p q : Pt) (moves : List Pt)
    (hover : ∃ it ∈ itemsAt st.items p, chainHasToDict it.kind = true)
    (hq1 : st.creating = none) (hq2 : st.dragMode = DMode.dnone)
    (hq3 : st.pressing = false) :
    (∀ it', itemAt st.items p = some it' → chainHasToDict it'.kind = true →
      (onDoubleClick uuid reg st p).1.items = st.items) ∧
    (sceneMarks (onMouseRelease ray uuid reg
        (moves.foldl (onMouseMove ray) (beginDragCreate (onMousePress st p).1)) q).items).length
      = (sceneMarks st.items).length := by
  constructor
  · intro it' h1 h2
    have hcc : canCreateAt st.items p = false := by
      unfold canCreateAt; rw [h1]; simp [h2]
    unfold onDoubleClick
    by_cases hbg : st.bgLoaded
    · by_cases hbs : isBasicShape st.tool
      · by_cases hem : st.editMode = EMode.select
        · simp [hbg, hbs, hem, hcc]
        · simp [hbg, hbs, hem]
      · simp [hbg, hbs]
    · simp [hbg]
  · obtain ⟨hi, hc1, hdm, hpr⟩ := press_over_mark st p hover
    have hbd : beginDragCreate (onMousePress st p).1 = (onMousePress st p).1 :=
      beginDragCreate_of_not_pressing _ (by rw [hpr, hq3])
    rw [hbd]
    have hc1' : (onMousePress st p).1.creating = none := by rw [hc1, hq1]
    obtain ⟨f1, f2, f3⟩ := foldl_moves_preserves ray moves (onMousePress st p).1 hc1'
    have hdm' : (moves.foldl (onMouseMove ray) (onMousePress st p).1).dragMode
        ≠ DMode.create := by
      rw [f2]
      rcases hdm with h | h | h <;> rw [h] <;> try rw [hq2]
      all_goals decide
    obtain ⟨r1, _⟩ := release_no_create ray uuid reg _ q f1 hdm'
    rw [r1, f3, hi]

/-- C5 witness: on a concrete state with a circle mark topmost under the
point, the double-click adds nothing and a full drag-create gesture with no
intermediate moves leaves the mark count unchanged. -/
theorem c5_amended_witness :
    (∃ it ∈ itemsAt c5StateTop.items ⟨5, 5⟩, chainHasToDict it.kind = true) ∧
    c5StateTop.creating = none ∧ c5StateTop.dragMode = DMode.dnone ∧
    c5StateTop.pressing = false ∧
    ((∀ it', itemAt c5StateTop.items ⟨5, 5⟩ = some it' → chainHasToDict it'.kind = true →
        (onDoubleClick "u" regAll c5StateTop ⟨5, 5⟩).1.items = c5StateTop.items) ∧
      (sceneMarks (onMouseRelease noRay "u" regAll
          (List.foldl (onMouseMove noRay)
            (beginDragCreate (onMousePress c5StateTop ⟨5, 5⟩).1) [])
          ⟨6, 6⟩).items).length = (sceneMarks c5StateTop.items).length) := by
  have hov : ∃ it ∈ itemsAt c5StateTop.items ⟨5, 5⟩, chainHasToDict it.kind = true := by
    refine ⟨c5MarkItem, ?_, rfl⟩
    have h : itemsAt c5StateTop.items ⟨5, 5⟩ = [c5MarkItem] := rfl
    rw [h]
    exact List.mem_cons_self _ _
  exact ⟨hov, rfl, rfl, rfl,
    c5_amended noRay "u" regAll c5StateTop ⟨5, 5⟩ ⟨6, 6⟩ [] hov rfl rfl rfl⟩

/-- C6: every undersized creation gesture is a no-op cancellation.  A memo
line released under 8 units, a memo free path whose bounding box fits under
6×6, and a drag-created shape whose press-to-release displacement is under
`max(width, height) + 10` are all discarded: the scene keeps exactly its
items, the in-progress item is dropped, and the undo stack is not mutated
(for the memo cases under the session invariant that the stack top is the
snapshot of the scene as it stood at the press; the circle cancel skips
`_end_edit` entirely and leaves the whole history record untouched). -/
theorem c6_undersized (ray : RayFn) (uuid : String) (reg : Pt → Bool)
    (st : CState) (q : Pt) :
    (∀ p1 p2, st.creating = some (.cMemoLine p1 p2) →
      dist2 p1 p2 < minMemoLineLen * minMemoLineLen →
      st.hist.undoStack.getLast? = some (makeSnapshot (stScene st)) →
      (onMouseRelease ray uuid reg st q).items = st.items ∧
      (onMouseRelease ray uuid reg st q).creating = none ∧
      (onMouseRelease ray uuid reg st q).hist.undoStack = st.hist.undoStack ∧
      (onMouseRelease ray uuid reg st q).hist.redoStack = st.hist.redoStack) ∧
    (∀ s rest, st.creating = some (.cMemoFree s rest) →
      memoPathTooSmall s rest = true →
      st.hist.undoStack.getLast? = some (makeSnapshot (stScene st)) →
      (onMouseRelease ray uuid reg st q).items = st.items ∧
      (onMouseRelease ray uuid reg st q).creating = none ∧
      (onMouseRelease ray uuid reg st q).hist.undoStack = st.hist.undoStack ∧
      (onMouseRelease ray uuid reg st q).hist.redoStack = st.hist.redoStack) ∧
    (∀ m pp, st.creating = some (.cCircle m) → st.dragMode = DMode.create →
      st.pressPos = some pp →
      dist2 pp q < minLineLenFor m * minLineLenFor m →
      (onMouseRelease ray uuid reg st q).items = st.items ∧
      (onMouseRelease ray uuid reg st q).creating = none ∧
      (onMouseRelease ray uuid reg st q).hist = st.hist) := by
  refine ⟨?_, ?_, ?_⟩
  · intro p1 p2 hcr hlen hq
    have hml : memoLineTooShort st.creating = true := by
      rw [hcr]; simp [memoLineTooShort, hlen]
    obtain ⟨hu, hr⟩ := histEndEdit_quiet (makeSnapshot (stScene st)) st.hist hq
    unfold onMouseRelease
    rw [hml]
    simp [resetDrag, hu, hr]
  · intro s rest hcr hsm hq
    have hml : memoLineTooShort st.creating = false := by rw [hcr]; rfl
    have hmf : memoFreeTooSmall st.creating = true := by
      rw [hcr]; simp [memoFreeTooSmall, hsm]
    obtain ⟨hu, hr⟩ := histEndEdit_quiet (makeSnapshot (stScene st)) st.hist hq
    unfold onMouseRelease
    rw [hml, hmf]
    simp [resetDrag, hu, hr]
  · intro m pp hcr hdm hpp hdisp
    have hml : memoLineTooShort st.creating = false := by rw [hcr]; rfl
    have hmf : memoFreeTooSmall st.creating = false := by rw [hcr]; rfl
    unfold onMouseRelease
    rw [hml, hmf]
    simp [hdm, hcr, hpp, hdisp, resetDrag]

/-- C6 witness: three concrete mid-gesture states — a zero-length memo
line, a single-point memo free path, and a circle drag released at its
press point — each cancel without touching the scene items or the undo
history. -/
theorem c6_undersized_witness :
    ((onMouseRelease noRay "u" regAll c6StLine ⟨0, 0⟩).items = c6StLine.items ∧
     (onMouseRelease noRay "u" regAll c6StLine ⟨0, 0⟩).hist.undoStack
        = c6StLine.hist.undoStack) ∧
    ((onMouseRelease noRay "u" regAll c6StFree ⟨0, 0⟩).items = c6StFree.items ∧
     (onMouseRelease noRay "u" regAll c6StFree ⟨0, 0⟩).hist.undoStack
        = c6StFree.hist.undoStack) ∧
    ((onMouseRelease noRay "u" regAll c6StCircle ⟨1, 1⟩).items = c6StCircle.items ∧
     (onMouseRelease noRay "u" regAll c6StCircle ⟨1, 1⟩).hist = c6StCircle.hist) := by
  refine ⟨?_, ?_, ?_⟩
  · obtain ⟨h1, _, h3, _⟩ := (c6_undersized noRay "u" regAll c6StLine ⟨0, 0⟩).1
      ⟨0, 0⟩ ⟨0, 0⟩ rfl (by norm_num [dist2, minMemoLineLen]) rfl
    exact ⟨h1, h3⟩
  · obtain ⟨h1, _, h3, _⟩ := (c6_undersized noRay "u" regAll c6StFree ⟨0, 0⟩).2.1
      ⟨0, 0⟩ [] rfl (by norm_num [memoPathTooSmall, ptsBound, minMemoPathSize, List.foldl]) rfl
    exact ⟨h1, h3⟩
  · obtain ⟨h1, _, h3⟩ := (c6_undersized noRay "u" regAll c6StCircle ⟨1, 1⟩).2.2
      { shape := .circle 18, pos := ⟨1, 1⟩ } ⟨1, 1⟩ rfl rfl rfl
      (by norm_num [dist2, minLineLenFor])
    exact ⟨h1, h3⟩

/-- C2 counterexample: the round trip fails for two scenes the original
claim quantifies over.  A square mark exactly as double-click creation
leaves it (no `defect_info` attribute) comes back from
`restore(make_snapshot())` with `defect_info` set to the empty dict — the
defect-info values are not reproduced; and a square mark carrying a
persisted leader line does not restore at all: reattaching the line calls
`self.ray_intersection_point`, which non-circle marks lack, so the whole
restoration raises instead of yielding a scene. -/
theorem c2_counterexample :
    (∃ sc' : Scene, restoreSnapshot noRay c2Demo (makeSnapshot c2Demo) = Except.ok sc' ∧
      sc'.marks.map Mark.defect_info ≠ c2Demo.marks.map Mark.defect_info) ∧
    restoreSnapshot noRay c2DemoLine (makeSnapshot c2DemoLine) = Except.error () := by
  refine ⟨⟨{ bgPath := "bg",
             marks := [{ shape := .square 36, pos := ⟨1, 2⟩,
                         internal_id := some (.pstr "u"), display_id := some .pnone,
                         defect_info := some (.pdict []) }],
             memos := [] }, ?_, ?_⟩, ?_⟩
  · rfl
  · decide
  · rfl

/-- C2 amended: on a scene of canonical marks (every mark carries the
attributes the editor itself installs, and only circles — the one class
with `ray_intersection_point` — carry a leader line), `_restore_snapshot`
of `_make_snapshot` succeeds and reproduces the background, every mark's
internal id, position, scale, rotation and defect info in order, and the
memo strokes exactly. -/
theorem c2_amended (ray : RayFn) (sc : Scene)
    (hc : ∀ m ∈ sc.marks, canonicalMark m) :
    ∃ sc', restoreSnapshot ray sc (makeSnapshot sc) = .ok sc' ∧
      sc'.bgPath = sc.bgPath ∧
      sc'.marks.map markTuple = sc.marks.map markTuple ∧
      sc'.memos = sc.memos := by
  obtain ⟨ms', hms', hts⟩ := restoreItems_roundtrip ray sc.marks hc
  refine ⟨{ bgPath := sc.bgPath, marks := ms', memos := sc.memos }, ?_, rfl, hts, rfl⟩
  simp [restoreSnapshot, makeSnapshot, Py.getKey, lookupKV, hms',
    restoreMemos_roundtrip, Bind.bind, Except.bind]

/-- C2 witness: the concrete one-circle one-memo scene round-trips with its
compared data and memo intact. -/
theorem c2_amended_witness :
    (∀ m ∈ c2WitScene.marks, canonicalMark m) ∧
    (∃ sc', restoreSnapshot noRay c2WitScene (makeSnapshot c2WitScene) = .ok sc' ∧
      sc'.bgPath = c2WitScene.bgPath ∧
      sc'.marks.map markTuple = c2WitScene.marks.map markTuple ∧
      sc'.memos = c2WitScene.memos) := by
  have hcm : canonicalMark c2WitMark := by
    refine ⟨⟨.pstr "u", rfl⟩, ⟨1, rfl⟩, ⟨_, rfl, ⟨"벽체", rfl⟩, rfl, rfl, rfl, rfl, rfl⟩,
      ?_, ?_⟩
    · norm_num [circleMinScale, c2WitMark]
    · norm_num [circleMaxScale, c2WitMark]
  have hc : ∀ m ∈ c2WitScene.marks, canonicalMark m := by
    intro m hm
    have hmeq : m = c2WitMark := by simpa [c2WitScene] using hm
    rw [hmeq]; exact hcm
  exact ⟨hc, c2_amended noRay c2WitScene hc⟩

end FaultEd
